import Mathlib

/-! # The C0VM execution engine (`c0vm.c`)

A shallow embedding of the function `execute` of `c0vm.c` and of the contract macros of
`contracts.h`, followed by theorems about single steps and whole runs.

Conventions of the embedding.

* One iteration of the `while (true)` loop of `execute` is the function `step`; the loop itself
  is `run`, which counts iterations.
* `int32_t` values are mathematical integers; arithmetic that can leave the 32-bit range is
  reduced with `wrap32`.  `size_t` values are natural numbers reduced modulo `SIZE_MOD`.
* The operand stack is a list whose head is the top of the stack.
* Whatever C leaves undefined (popping an empty stack, reading outside an array, reading a
  value through the wrong variant) ends a step with `Halt.undefined`.
* Memory allocation is assumed to succeed.
* Where C leaves a choice to the implementation, the usual 64-bit one is taken: `int` has 32
  bits and is stored little-endian, pointers have 8 bytes, `char` is signed, `>>` on a negative
  `int` is the arithmetic shift, and signed overflow wraps.
* Pointer arithmetic is total on non-null pointers; what is checked is the access through the
  pointer.
-/

namespace C0VM

/-! ## Machine integers -/

/-- Number of values of the type `size_t` (64-bit). -/
def SIZE_MOD : Nat := 18446744073709551616

/-- The constant `INT_MIN` of `limits.h` for a 32-bit `int`. -/
def INT_MIN : Int := -2147483648

/-- Two's-complement reduction of an integer to the range of `int32_t`. -/
def wrap32 (x : Int) : Int := (x + 2147483648) % 4294967296 - 2147483648

/-- Bit pattern of an `int32_t`, read as `uint32_t`. -/
def toU32 (x : Int) : Nat := (x % 4294967296).toNat

/-- The cast `(uint8_t) n`. -/
def u8 (n : Nat) : Nat := n % 256

/-- The cast `(uint16_t) n`. -/
def u16 (n : Nat) : Nat := n % 65536

/-- The cast `(int8_t) b`. -/
def sext8 (b : Nat) : Int := if b % 256 < 128 then ((b % 256 : Nat) : Int) else ((b % 256 : Nat) : Int) - 256

/-- The cast `(int16_t) w`. -/
def sext16 (w : Nat) : Int :=
  if w % 65536 < 32768 then ((w % 65536 : Nat) : Int) else ((w % 65536 : Nat) : Int) - 65536

/-- Conversion of an `int` to `size_t`, as in `pc += idx - 2`. -/
def toSize (x : Int) : Nat := (x % (SIZE_MOD : Int)).toNat

/-! ## Values, frames, heap -/

/-- A pointer: `NULL`, or byte offset `off` into the memory object number `block`. -/
inductive Ptr where
  | null
  | loc (block : Nat) (off : Int)
  deriving DecidableEq, Repr

/-- The tagged value `c0_value`: a 32-bit integer or a pointer. -/
inductive c0_value where
  | int (i : Int)
  | ptr (p : Ptr)
  deriving DecidableEq, Repr

/-- One byte of memory: a plain byte, or byte `k` of a stored pointer `p`. -/
inductive MemVal where
  | byte (b : Nat)
  | ptrfrag (p : Ptr) (k : Nat)
  deriving DecidableEq, Repr

/-- Modelled from the spec: the array descriptor `c0_array` of `lib/c0vm.h` (not part of the
sources), with the fields `count`, `elt_size` and `elems` that `c0vm.c` uses; `count` and
`elt_size` are 32-bit signed integers as the spec's data model says. -/
structure c0_array where
  count : Int
  elt_size : Int
  elems : Ptr
  deriving DecidableEq, Repr

/-- A memory object: a buffer of bytes or an array descriptor. -/
inductive Block where
  | bytes (cells : List MemVal)
  | array (a : c0_array)
  deriving DecidableEq, Repr

/-- The memory: object number `n` is entry `n`; object 0 is the string pool of the image. -/
abbrev Heap := List Block

/-- The suspended frame `struct frame_info`. -/
structure frame where
  S : List c0_value
  P : List Nat
  pc : Nat
  V : List c0_value
  deriving DecidableEq, Repr

/-- The local variables of `execute` that live across iterations, and the memory. -/
structure State where
  S : List c0_value
  P : List Nat
  pc : Nat
  V : List c0_value
  callStack : List frame
  H : Heap
  deriving DecidableEq, Repr

/-- Entry of `function_pool`. -/
structure function_info where
  num_args : Nat
  num_vars : Nat
  code : List Nat
  deriving DecidableEq, Repr

/-- Entry of `native_pool`. -/
structure native_info where
  num_args : Nat
  function_table_index : Nat
  deriving DecidableEq, Repr

/-- The loaded image `struct bc0_file`, with the fields that `execute` reads. -/
structure bc0_file where
  int_pool : List Int
  string_pool : List Nat
  function_pool : List function_info
  native_pool : List native_info
  deriving DecidableEq, Repr

/-! ## Ways a run ends -/

/-- The kinds of trap: the four `c0_*_error` functions of `lib/c0vm_abort.h`, and `fatal` for
`abort()` (invalid opcode, failed `assert`). -/
inductive Trap where
  | arith
  | memory
  | assertion
  | user
  | fatal
  deriving DecidableEq, Repr

/-- How execution stops: `execute` returns `v`, a trap, or behaviour that C leaves undefined. -/
inductive Halt where
  | ret (v : Int)
  | trap (k : Trap)
  | undefined
  deriving DecidableEq, Repr

/-- Result of a fallible computation. -/
abbrev Res (α : Type) := Except Halt α

/-- Modelled from the spec: `c0_arith_error` of `lib/c0vm_abort.h` (not part of the sources)
ends the program with an arith-error trap and does not return. -/
def c0_arith_error {α : Type} : Res α := .error (.trap .arith)

/-- Modelled from the spec: `c0_memory_error` of `lib/c0vm_abort.h` (not part of the sources)
ends the program with a memory-error trap and does not return. -/
def c0_memory_error {α : Type} : Res α := .error (.trap .memory)

/-- Modelled from the spec: `c0_assertion_failure` of `lib/c0vm_abort.h` (not part of the
sources) ends the program with an assertion-failure trap and does not return. -/
def c0_assertion_failure {α : Type} : Res α := .error (.trap .assertion)

/-- Modelled from the spec: `c0_user_error` of `lib/c0vm_abort.h` (not part of the sources)
ends the program with a user-error trap and does not return. -/
def c0_user_error {α : Type} : Res α := .error (.trap .user)

/-! ## Opcodes -/

/-- The opcode names used as `case` labels in `execute`, in the order of the `switch`. -/
inductive Opcode where
  | POP | DUP | SWAP | RETURN
  | IADD | ISUB | IMUL | IDIV | IREM | IAND | IOR | IXOR | ISHR | ISHL
  | BIPUSH | ILDC | ALDC | ACONST_NULL
  | VLOAD | VSTORE
  | ATHROW | ASSERT
  | NOP | IF_CMPEQ | IF_CMPNE | IF_ICMPLT | IF_ICMPGE | IF_ICMPGT | IF_ICMPLE | GOTO
  | INVOKESTATIC | INVOKENATIVE
  | NEW | IMLOAD | IMSTORE | AMLOAD | AMSTORE | CMLOAD | CMSTORE | AADDF
  | NEWARRAY | ARRAYLENGTH | AADDS
  | CHECKTAG | HASTAG | ADDTAG | ADDROF_STATIC | ADDROF_NATIVE | INVOKEDYNAMIC
  deriving DecidableEq, Repr

/-- All opcode names, in the order of the `switch`. -/
def Opcode.all : List Opcode :=
  [.POP, .DUP, .SWAP, .RETURN,
   .IADD, .ISUB, .IMUL, .IDIV, .IREM, .IAND, .IOR, .IXOR, .ISHR, .ISHL,
   .BIPUSH, .ILDC, .ALDC, .ACONST_NULL,
   .VLOAD, .VSTORE,
   .ATHROW, .ASSERT,
   .NOP, .IF_CMPEQ, .IF_CMPNE, .IF_ICMPLT, .IF_ICMPGE, .IF_ICMPGT, .IF_ICMPLE, .GOTO,
   .INVOKESTATIC, .INVOKENATIVE,
   .NEW, .IMLOAD, .IMSTORE, .AMLOAD, .AMSTORE, .CMLOAD, .CMSTORE, .AADDF,
   .NEWARRAY, .ARRAYLENGTH, .AADDS,
   .CHECKTAG, .HASTAG, .ADDTAG, .ADDROF_STATIC, .ADDROF_NATIVE, .INVOKEDYNAMIC]

/-- Modelled from the spec: the numeric values of the opcode macros are defined in
`lib/c0vm.h`, which is not part of the sources, so the numbering is a parameter. The case labels
of one `switch` are pairwise distinct (`inj`). -/
structure OpcodeTable where
  enc : Opcode → Nat
  inj : ∀ a b : Opcode, enc a = enc b → a = b

/-- The `case` selected by `switch (P[pc])` for the byte `b`, if any. -/
def OpcodeTable.decode (T : OpcodeTable) (b : Nat) : Option Opcode :=
  Opcode.all.find? (fun o => T.enc o == b)

/-- What `execute` takes from outside `c0vm.c`: the opcode numbering, whether `DEBUG` is
defined (`contracts.h`), and the host table `native_function_table`, whose entries may fail. -/
structure Config where
  ops : OpcodeTable
  DEBUG : Bool
  native_function_table : Nat → List c0_value → Heap → Res (c0_value × Heap)

/-! ## The contract macros of `contracts.h` -/

/-- The macro `ASSERT(COND)`: `assert(COND)` when `DEBUG` is defined, nothing otherwise. A
failed `assert` calls `abort()`. -/
def ASSERT (cfg : Config) (COND : Bool) : Res Unit :=
  if cfg.DEBUG then (if COND then .ok () else .error (.trap .fatal)) else .ok ()

/-- The macro `REQUIRES(COND)`, defined exactly as `ASSERT(COND)`. -/
def REQUIRES (cfg : Config) (COND : Bool) : Res Unit :=
  if cfg.DEBUG then (if COND then .ok () else .error (.trap .fatal)) else .ok ()

/-- The macro `ENSURES(COND)`, defined exactly as `ASSERT(COND)`. -/
def ENSURES (cfg : Config) (COND : Bool) : Res Unit :=
  if cfg.DEBUG then (if COND then .ok () else .error (.trap .fatal)) else .ok ()

/-- The macro `IF_DEBUG(CMD)`: `{CMD;}` when `DEBUG` is defined, nothing otherwise; the result
of `CMD` is dropped. -/
def IF_DEBUG {α : Type} (cfg : Config) (CMD : Res α) : Res Unit :=
  if cfg.DEBUG then (do let _ ← CMD; pure ()) else .ok ()

/-! ## Values and the operand stack -/

/-- Modelled from the spec: `int2val` of `lib/c0vm.h` (not part of the sources) builds the
`Int` variant. -/
def int2val (i : Int) : c0_value := .int i

/-- Modelled from the spec: `ptr2val` of `lib/c0vm.h` (not part of the sources) builds the
`Ref` variant. -/
def ptr2val (p : Ptr) : c0_value := .ptr p

/-- Modelled from the spec: `val2int` of `lib/c0vm.h` (not part of the sources) gives the
payload of the `Int` variant; on the other variant nothing is specified. -/
def val2int : c0_value → Res Int
  | .int i => .ok i
  | .ptr _ => .error .undefined

/-- Modelled from the spec: `val2ptr` of `lib/c0vm.h` (not part of the sources) gives the
payload of the `Ref` variant; on the other variant nothing is specified. -/
def val2ptr : c0_value → Res Ptr
  | .ptr p => .ok p
  | .int _ => .error .undefined

/-- Modelled from the spec: `val_equal` of `lib/c0vm.h` (not part of the sources): two `Int`
values are equal iff their bits are equal, two `Ref` values iff their addresses are equal
(null equals null), and mixed variants are unequal. -/
def val_equal : c0_value → c0_value → Bool
  | .int a, .int b => decide (a = b)
  | .ptr p, .ptr q => decide (p = q)
  | _, _ => false

/-- Modelled from the spec: `c0v_pop` of `lib/c0v_stack.h` (not part of the sources) removes
and returns the top of the operand stack; on an empty stack nothing is specified. -/
def c0v_pop : List c0_value → Res (c0_value × List c0_value)
  | [] => .error .undefined
  | v :: S => .ok (v, S)

/-- Modelled from the spec: `c0v_push` of `lib/c0v_stack.h` (not part of the sources) puts a
value on top of the operand stack. -/
def c0v_push (S : List c0_value) (v : c0_value) : List c0_value := v :: S

/-- The function `push_int`; its two contracts hold for every stack of the embedding. -/
def push_int (S : List c0_value) (i : Int) : List c0_value := c0v_push S (int2val i)

/-- The function `pop_ptr`. -/
def pop_ptr (S : List c0_value) : Res (Ptr × List c0_value) := do
  let (v, S) ← c0v_pop S
  let p ← val2ptr v
  pure (p, S)

/-- The function `push_ptr`. -/
def push_ptr (S : List c0_value) (x : Ptr) : List c0_value := c0v_push S (ptr2val x)

/-- The zero-filled `c0_value` that `xcalloc` yields; the spec takes it to be `Int(0)`. -/
def zero_value : c0_value := .int 0

/-! ## Arrays of the C program -/

/-- The read `A[i]` of a C array; outside the array nothing is defined. -/
def rd {α : Type} (A : List α) (i : Nat) : Res α :=
  match A[i]? with
  | some a => .ok a
  | none => .error .undefined

/-- The write `A[i] = v` of a C array; outside the array nothing is defined. -/
def wr {α : Type} (A : List α) (i : Nat) (v : α) : Res (List α) :=
  if i < A.length then .ok (A.set i v) else .error .undefined

/-- The 16-bit index `((uint16_t)P[pc+1] << 8) | (uint16_t)P[pc+2]` of `ILDC`, `ALDC`,
`INVOKESTATIC` and `INVOKENATIVE`. -/
def imm16 (P : List Nat) (pc : Nat) : Res Nat := do
  let v_1 ← rd P ((pc + 1) % SIZE_MOD)
  let v_2 ← rd P ((pc + 2) % SIZE_MOD)
  pure (u16 (u16 (u16 v_1 <<< 8) ||| u16 v_2))

/-- The loop `for (i = n - 1; i >= 0; i--) A[i] = c0v_pop(S);` of `INVOKESTATIC` and
`INVOKENATIVE`, with `n` iterations left: returns the filled array and the remaining stack. -/
def pop_args : Nat → List c0_value → List c0_value → Res (List c0_value × List c0_value)
  | 0, A, S => .ok (A, S)
  | n + 1, A, S => do
    let (v, S) ← c0v_pop S
    let A ← wr A n v
    pop_args n A S

/-! ## Memory -/

/-- The value of `sizeof(void*)` (64-bit). -/
def SIZEOF_PTR : Nat := 8

/-- The call `xcalloc(1, n)`: a new object of `n` zero bytes. -/
def zero_bytes (n : Nat) : Block := .bytes (List.replicate n (.byte 0))

/-- Reads `n` bytes at the pointer `p`; the bytes must lie inside one byte buffer. -/
def load (H : Heap) (p : Ptr) (n : Nat) : Res (List MemVal) :=
  match p with
  | .null => .error .undefined
  | .loc b off =>
    match H[b]? with
    | some (.bytes cells) =>
      if 0 ≤ off ∧ off.toNat + n ≤ cells.length then .ok ((cells.drop off.toNat).take n)
      else .error .undefined
    | _ => .error .undefined

/-- Writes the bytes `vs` at the pointer `p`; the bytes must lie inside one byte buffer. -/
def store (H : Heap) (p : Ptr) (vs : List MemVal) : Res Heap :=
  match p with
  | .null => .error .undefined
  | .loc b off =>
    match H[b]? with
    | some (.bytes cells) =>
      if 0 ≤ off ∧ off.toNat + vs.length ≤ cells.length then
        .ok (H.set b (.bytes (cells.take off.toNat ++ vs ++ cells.drop (off.toNat + vs.length))))
      else .error .undefined
    | _ => .error .undefined

/-- The four bytes of an `int` in memory (little-endian). -/
def int_bytes (v : Int) : List MemVal :=
  [.byte (toU32 v % 256), .byte (toU32 v / 256 % 256), .byte (toU32 v / 65536 % 256),
   .byte (toU32 v / 16777216 % 256)]

/-- The `int` held by four bytes of memory (little-endian). -/
def bytes_int : List MemVal → Res Int
  | [.byte b0, .byte b1, .byte b2, .byte b3] =>
    .ok (wrap32 ((b0 % 256 + 256 * (b1 % 256) + 65536 * (b2 % 256) + 16777216 * (b3 % 256) : Nat) : Int))
  | _ => .error .undefined

/-- The `sizeof(void*)` bytes of a pointer in memory; `NULL` is all zero bytes. -/
def ptr_bytes : Ptr → List MemVal
  | .null => List.replicate SIZEOF_PTR (.byte 0)
  | .loc b off => (List.range SIZEOF_PTR).map (fun k => .ptrfrag (.loc b off) k)

/-- The pointer held by `sizeof(void*)` bytes of memory. -/
def bytes_ptr (cells : List MemVal) : Res Ptr :=
  if cells = ptr_bytes .null then .ok .null
  else
    match cells with
    | .ptrfrag p _ :: _ => if cells = ptr_bytes p then .ok p else .error .undefined
    | _ => .error .undefined

/-- The read `*array` of a descriptor through a `c0_array*`. -/
def load_array (H : Heap) (p : Ptr) : Res c0_array :=
  match p with
  | .loc b 0 =>
    match H[b]? with
    | some (.array a) => .ok a
    | _ => .error .undefined
  | _ => .error .undefined

/-- The pointer `(char*)p + k`; arithmetic on `NULL` is not defined. -/
def ptr_add (p : Ptr) (k : Int) : Res Ptr :=
  match p with
  | .null => .error .undefined
  | .loc b off => .ok (.loc b (off + k))

/-! ## Instruction handlers shared by several `case`s -/

/-- The body shared by the ten arithmetic, logic and shift cases: `f v_2 v_1` is the value
pushed, or the trap raised before `push_int`. -/
def arith (cfg : Config) (s : State) (f : Int → Int → Res Int) : Res State := do
  REQUIRES cfg (decide (s.S.length ≥ 2))
  let pc := (s.pc + 1) % SIZE_MOD
  let (v_1_tmp, S) ← c0v_pop s.S
  let v_1 ← val2int v_1_tmp
  let (v_2_tmp, S) ← c0v_pop S
  let v_2 ← val2int v_2_tmp
  let res ← f v_2 v_1
  let S := push_int S res
  ASSERT cfg (!S.isEmpty)
  pure { s with S := S, pc := pc }

/-- The taken-branch code shared by `GOTO` and the conditional branches; `pc` is the program
counter after the first `pc++`, that is, the index of the first offset byte. -/
def jump (P : List Nat) (pc : Nat) : Res Nat := do
  let b_1 ← rd P pc
  let v_1 := u16 (u16 b_1 <<< 8)
  let pc := (pc + 1) % SIZE_MOD
  let b_2 ← rd P pc
  let v_2 := u16 b_2
  let tmp := u16 (v_1 ||| v_2)
  let idx := sext16 tmp
  pure ((pc + toSize (idx - 2)) % SIZE_MOD)

/-- The body shared by `IF_CMPEQ` and `IF_CMPNE`: `test tmp_1 tmp_2` is the branch condition. -/
def if_cmp (s : State) (test : c0_value → c0_value → Bool) : Res State := do
  let pc := (s.pc + 1) % SIZE_MOD
  let (tmp_1, S) ← c0v_pop s.S
  let (tmp_2, S) ← c0v_pop S
  if test tmp_1 tmp_2 then do
    let pc ← jump s.P pc
    pure { s with S := S, pc := pc }
  else
    pure { s with S := S, pc := (pc + 2) % SIZE_MOD }

/-- The body shared by `IF_ICMPLT`, `IF_ICMPGE`, `IF_ICMPGT` and `IF_ICMPLE`: `test tmp_2 tmp_1`
is the branch condition. -/
def if_icmp (s : State) (test : Int → Int → Bool) : Res State := do
  let pc := (s.pc + 1) % SIZE_MOD
  let (t_1, S) ← c0v_pop s.S
  let tmp_1 ← val2int t_1
  let (t_2, S) ← c0v_pop S
  let tmp_2 ← val2int t_2
  if test tmp_2 tmp_1 then do
    let pc ← jump s.P pc
    pure { s with S := S, pc := pc }
  else
    pure { s with S := S, pc := (pc + 2) % SIZE_MOD }

/-- The check of `IDIV` and `IREM` before the division. -/
def div_check (v_2 v_1 : Int) : Res Unit :=
  if v_2 = INT_MIN ∧ v_1 = -1 then c0_arith_error
  else if v_1 = 0 then c0_arith_error
  else .ok ()

/-- The check of `ISHR` and `ISHL` before the shift. -/
def shift_check (v_1 : Int) : Res Unit :=
  if v_1 < 0 ∨ v_1 > 31 then c0_arith_error else .ok ()

/-! ## One iteration of the dispatch loop -/

/-- The body of the `switch` of `execute` for the selected `case`. -/
def exec (cfg : Config) (bc0 : bc0_file) (s : State) : Opcode → Res State
  | .POP => do
    let pc := (s.pc + 1) % SIZE_MOD
    let (_, S) ← c0v_pop s.S
    pure { s with S := S, pc := pc }
  | .DUP => do
    let pc := (s.pc + 1) % SIZE_MOD
    let (v, S) ← c0v_pop s.S
    let S := c0v_push S v
    let S := c0v_push S v
    pure { s with S := S, pc := pc }
  | .SWAP => do
    let pc := (s.pc + 1) % SIZE_MOD
    let (v_1, S) ← c0v_pop s.S
    let (v_2, S) ← c0v_pop S
    let S := c0v_push S v_1
    let S := c0v_push S v_2
    pure { s with S := S, pc := pc }
  | .RETURN => do
    let (retval, S) ← c0v_pop s.S
    ASSERT cfg S.isEmpty
    IF_DEBUG cfg (val2int retval)
    match s.callStack with
    | [] => do
      let v ← val2int retval
      .error (.ret v)
    | fun_ :: callStack =>
      pure { s with S := c0v_push fun_.S retval, P := fun_.P, V := fun_.V, pc := fun_.pc,
                    callStack := callStack }
  | .IADD => arith cfg s (fun v_2 v_1 => .ok (wrap32 (v_2 + v_1)))
  | .ISUB => arith cfg s (fun v_2 v_1 => .ok (wrap32 (v_2 - v_1)))
  | .IMUL => arith cfg s (fun v_2 v_1 => .ok (wrap32 (v_2 * v_1)))
  | .IDIV => arith cfg s (fun v_2 v_1 => do
      div_check v_2 v_1
      pure (Int.tdiv v_2 v_1))
  | .IREM => arith cfg s (fun v_2 v_1 => do
      div_check v_2 v_1
      pure (Int.tmod v_2 v_1))
  | .IAND => arith cfg s (fun v_2 v_1 => .ok (wrap32 ((toU32 v_2 &&& toU32 v_1 : Nat) : Int)))
  | .IOR => arith cfg s (fun v_2 v_1 => .ok (wrap32 ((toU32 v_2 ||| toU32 v_1 : Nat) : Int)))
  | .IXOR => arith cfg s (fun v_2 v_1 => .ok (wrap32 ((toU32 v_2 ^^^ toU32 v_1 : Nat) : Int)))
  | .ISHR => arith cfg s (fun v_2 v_1 => do
      shift_check v_1
      pure (v_2 >>> v_1.toNat))
  | .ISHL => arith cfg s (fun v_2 v_1 => do
      shift_check v_1
      pure (wrap32 ((toU32 v_2 <<< v_1.toNat : Nat) : Int)))
  | .BIPUSH => do
    let b ← rd s.P ((s.pc + 1) % SIZE_MOD)
    let signed_byte := sext8 b
    let S := push_int s.S signed_byte
    let pc := (s.pc + 2) % SIZE_MOD
    ASSERT cfg (!S.isEmpty)
    pure { s with S := S, pc := pc }
  | .ILDC => do
    let tmp ← imm16 s.P s.pc
    let tmp_int ← rd bc0.int_pool tmp
    let S := push_int s.S tmp_int
    pure { s with S := S, pc := (s.pc + 3) % SIZE_MOD }
  | .ALDC => do
    let tmp ← imm16 s.P s.pc
    let S := c0v_push s.S (ptr2val (.loc 0 tmp))
    pure { s with S := S, pc := (s.pc + 3) % SIZE_MOD }
  | .ACONST_NULL => do
    let pc := (s.pc + 1) % SIZE_MOD
    let S := c0v_push s.S (ptr2val .null)
    pure { s with S := S, pc := pc }
  | .VLOAD => do
    let k ← rd s.P ((s.pc + 1) % SIZE_MOD)
    let v ← rd s.V k
    let S := c0v_push s.S v
    pure { s with S := S, pc := (s.pc + 2) % SIZE_MOD }
  | .VSTORE => do
    let k ← rd s.P ((s.pc + 1) % SIZE_MOD)
    let (v, S) ← c0v_pop s.S
    let V ← wr s.V k v
    pure { s with S := S, V := V, pc := (s.pc + 2) % SIZE_MOD }
  | .ATHROW => do
    let (_, _) ← pop_ptr s.S
    c0_user_error
  | .ASSERT => do
    let (_, S) ← pop_ptr s.S
    let (c, S) ← c0v_pop S
    let tmp ← val2int c
    if tmp = 0 then c0_assertion_failure
    else pure { s with S := S, pc := (s.pc + 1) % SIZE_MOD }
  | .NOP => pure { s with pc := (s.pc + 1) % SIZE_MOD }
  | .IF_CMPEQ => if_cmp s (fun tmp_1 tmp_2 => val_equal tmp_1 tmp_2)
  | .IF_CMPNE => if_cmp s (fun tmp_1 tmp_2 => !val_equal tmp_1 tmp_2)
  | .IF_ICMPLT => if_icmp s (fun tmp_2 tmp_1 => decide (tmp_2 < tmp_1))
  | .IF_ICMPGE => if_icmp s (fun tmp_2 tmp_1 => decide (tmp_2 ≥ tmp_1))
  | .IF_ICMPGT => if_icmp s (fun tmp_2 tmp_1 => decide (tmp_2 > tmp_1))
  | .IF_ICMPLE => if_icmp s (fun tmp_2 tmp_1 => decide (tmp_2 ≤ tmp_1))
  | .GOTO => do
    let pc := (s.pc + 1) % SIZE_MOD
    let pc ← jump s.P pc
    pure { s with pc := pc }
  | .INVOKESTATIC => do
    let idx ← imm16 s.P s.pc
    let f ← rd bc0.function_pool idx
    let v_3 := f.num_args
    let V := List.replicate f.num_vars zero_value
    let (V, S) ← pop_args v_3 V s.S
    let curr_fun : frame := { S := S, P := s.P, V := s.V, pc := (s.pc + 3) % SIZE_MOD }
    pure { s with S := [], P := f.code, pc := 0, V := V, callStack := curr_fun :: s.callStack }
  | .INVOKENATIVE => do
    let idx ← imm16 s.P s.pc
    let g ← rd bc0.native_pool idx
    let v_3 := g.num_args
    let args := List.replicate v_3 zero_value
    let (args, S) ← pop_args v_3 args s.S
    let (res, H) ← cfg.native_function_table g.function_table_index args s.H
    let S := c0v_push S res
    pure { s with S := S, H := H, pc := (s.pc + 3) % SIZE_MOD }
  | .NEW => do
    let pc := (s.pc + 1) % SIZE_MOD
    let tmp_1 ← rd s.P pc
    let S := push_ptr s.S (.loc s.H.length 0)
    pure { s with S := S, H := s.H ++ [zero_bytes (u8 tmp_1)], pc := (pc + 1) % SIZE_MOD }
  | .IMLOAD => do
    let (int_ptr, S) ← pop_ptr s.S
    if int_ptr = .null then c0_memory_error
    else do
      let cells ← load s.H int_ptr 4
      let v ← bytes_int cells
      pure { s with S := push_int S v, pc := (s.pc + 1) % SIZE_MOD }
  | .IMSTORE => do
    let (tmp_1, S) ← c0v_pop s.S
    let (tmp_2, S) ← c0v_pop S
    let int_ptr ← val2ptr tmp_2
    if int_ptr = .null then c0_memory_error
    else do
      let v ← val2int tmp_1
      let H ← store s.H int_ptr (int_bytes v)
      pure { s with S := S, H := H, pc := (s.pc + 1) % SIZE_MOD }
  | .AMLOAD => do
    let (tmp, S) ← c0v_pop s.S
    let ptr ← val2ptr tmp
    if ptr = .null then c0_memory_error
    else do
      let cells ← load s.H ptr SIZEOF_PTR
      let res ← bytes_ptr cells
      pure { s with S := push_ptr S res, pc := (s.pc + 1) % SIZE_MOD }
  | .AMSTORE => do
    let (ptr_1, S) ← pop_ptr s.S
    let (ptr_2, S) ← pop_ptr S
    if ptr_1 = .null ∨ ptr_2 = .null then c0_memory_error
    else do
      let H ← store s.H ptr_2 (ptr_bytes ptr_1)
      pure { s with S := S, H := H, pc := (s.pc + 1) % SIZE_MOD }
  | .CMLOAD => do
    let (tmp, S) ← c0v_pop s.S
    let int_ptr ← val2ptr tmp
    if int_ptr = .null then c0_memory_error
    else do
      let cells ← load s.H int_ptr 1
      match cells with
      | [.byte b] => pure { s with S := push_int S (sext8 b), pc := (s.pc + 1) % SIZE_MOD }
      | _ => .error .undefined
  | .CMSTORE => do
    let (t, S) ← c0v_pop s.S
    let res ← val2int t
    let (r, S) ← c0v_pop S
    let ptr ← val2ptr r
    if ptr = .null then c0_memory_error
    else do
      let H ← store s.H ptr [.byte (toU32 res &&& 0x7f)]
      pure { s with S := S, H := H }
  | .AADDF => do
    let pc := (s.pc + 1) % SIZE_MOD
    let v_1 ← rd s.P pc
    let (char_ptr, S) ← pop_ptr s.S
    if char_ptr = .null then c0_memory_error
    else do
      let res ← ptr_add char_ptr (u8 v_1)
      pure { s with S := push_ptr S res, pc := (pc + 1) % SIZE_MOD }
  | .NEWARRAY => do
    let pc := (s.pc + 1) % SIZE_MOD
    let b ← rd s.P pc
    let elt_size := sext8 b
    let (c, S) ← c0v_pop s.S
    let count ← val2int c
    if count < 0 then c0_assertion_failure
    else do
      let res : c0_array := { count := count, elt_size := elt_size, elems := .loc (s.H.length + 1) 0 }
      let H := s.H ++ [.array res, zero_bytes (SIZEOF_PTR * count.toNat)]
      pure { s with S := push_ptr S (.loc s.H.length 0), H := H, pc := (pc + 1) % SIZE_MOD }
  | .ARRAYLENGTH => do
    let (res, S) ← pop_ptr s.S
    if res = .null then c0_memory_error
    else do
      let a ← load_array s.H res
      pure { s with S := push_int S a.count, pc := (s.pc + 1) % SIZE_MOD }
  | .AADDS => do
    let (t, S) ← c0v_pop s.S
    let i ← val2int t
    let (tmp, S) ← pop_ptr S
    let array ← load_array s.H tmp
    if i ≥ array.count ∧ i ≥ 0 then c0_memory_error
    else do
      let res ← ptr_add array.elems (wrap32 (array.elt_size * i))
      pure { s with S := push_ptr S res, pc := (s.pc + 1) % SIZE_MOD }
  | .CHECKTAG => .error (.trap .fatal)
  | .HASTAG => .error (.trap .fatal)
  | .ADDTAG => .error (.trap .fatal)
  | .ADDROF_STATIC => .error (.trap .fatal)
  | .ADDROF_NATIVE => .error (.trap .fatal)
  | .INVOKEDYNAMIC => .error (.trap .fatal)

/-- One iteration of the loop of `execute`: `switch (P[pc])`, with `default:` for a byte that
is no opcode. -/
def step (cfg : Config) (bc0 : bc0_file) (s : State) : Res State := do
  let b ← rd s.P s.pc
  match cfg.ops.decode b with
  | some op => exec cfg bc0 s op
  | none => .error (.trap .fatal)

/-- The loop `while (true)` of `execute`, for at most `fuel` iterations: `none` when the
iterations are used up before the program stops. -/
def run (cfg : Config) (bc0 : bc0_file) : Nat → State → Option Halt
  | 0, _ => none
  | fuel + 1, s =>
    match step cfg bc0 s with
    | .ok s' => run cfg bc0 fuel s'
    | .error h => some h

/-- The state in which `execute` enters its loop. -/
def init (bc0 : bc0_file) : Res State := do
  let f ← rd bc0.function_pool 0
  pure { S := [], P := f.code, pc := 0, V := List.replicate f.num_vars zero_value,
         callStack := [], H := [.bytes (bc0.string_pool.map .byte)] }

/-- The function `execute`, for at most `fuel` iterations of its loop. -/
def execute (cfg : Config) (bc0 : bc0_file) (fuel : Nat) : Option Halt :=
  match init bc0 with
  | .ok s => run cfg bc0 fuel s
  | .error h => some h

/-! ## A concrete configuration -/

/-- The opcode numbering of the published C0VM bytecode format. -/
def c0vm_enc : Opcode → Nat
  | .NOP => 0x00 | .ACONST_NULL => 0x01 | .BIPUSH => 0x10 | .ILDC => 0x13 | .ALDC => 0x14
  | .VLOAD => 0x15 | .ADDROF_STATIC => 0x16 | .ADDROF_NATIVE => 0x17
  | .IMLOAD => 0x2E | .AMLOAD => 0x2F | .CMLOAD => 0x34 | .VSTORE => 0x36
  | .IMSTORE => 0x4E | .AMSTORE => 0x4F | .CMSTORE => 0x55
  | .POP => 0x57 | .DUP => 0x59 | .SWAP => 0x5F
  | .IADD => 0x60 | .AADDF => 0x62 | .AADDS => 0x63 | .ISUB => 0x64 | .IMUL => 0x68
  | .IDIV => 0x6C | .IREM => 0x70 | .ISHL => 0x78 | .ISHR => 0x7A
  | .IAND => 0x7E | .IOR => 0x80 | .IXOR => 0x82
  | .IF_CMPEQ => 0x9F | .IF_CMPNE => 0xA0 | .IF_ICMPLT => 0xA1 | .IF_ICMPGE => 0xA2
  | .IF_ICMPGT => 0xA3 | .IF_ICMPLE => 0xA4 | .GOTO => 0xA7
  | .RETURN => 0xB0 | .INVOKEDYNAMIC => 0xB6 | .INVOKENATIVE => 0xB7 | .INVOKESTATIC => 0xB8
  | .NEW => 0xBB | .NEWARRAY => 0xBC | .ARRAYLENGTH => 0xBE | .ATHROW => 0xBF
  | .CHECKTAG => 0xC0 | .HASTAG => 0xC1 | .ADDTAG => 0xC2 | .ASSERT => 0xCF

/-- The inverse of `c0vm_enc` on the opcode bytes. -/
def c0vm_dec (b : Nat) : Option Opcode := Opcode.all.find? (fun o => c0vm_enc o == b)

/-- The published numbering as an opcode table. -/
def c0vm_ops : OpcodeTable where
  enc := c0vm_enc
  inj := fun a b h => by
    have key : ∀ o : Opcode, c0vm_dec (c0vm_enc o) = some o := by
      intro o
      cases o <;> rfl
    have h1 := key a
    rw [h, key b] at h1
    exact (Option.some.inj h1).symm

/-- A configuration without `DEBUG` whose host table has no usable entry. -/
def c0vm_cfg : Config where
  ops := c0vm_ops
  DEBUG := false
  native_function_table := fun _ _ _ => .error .undefined

/-- The image of scenario E1: `BIPUSH 2; BIPUSH 3; IADD; RETURN`. -/
def E1_main : function_info :=
  { num_args := 0, num_vars := 0, code := [0x10, 2, 0x10, 3, 0x60, 0xB0] }

/-- The image of scenario E1. -/
def E1_image : bc0_file :=
  { int_pool := [], string_pool := [], function_pool := [E1_main], native_pool := [] }

/-- A state about to execute `RETURN` with `Int(7)` on the stack and no caller. -/
def ret7_state : State :=
  { S := [.int 7], P := [0xB0], pc := 0, V := [], callStack := [], H := [] }

/-- A state about to execute the one-byte instruction `opbyte` with `a` pushed before `b`. -/
def binop_state (opbyte : Nat) (a b : Int) : State :=
  { S := [.int b, .int a], P := [opbyte], pc := 0, V := [], callStack := [], H := [] }

/-- The ten arithmetic, logic and shift opcodes. -/
def arith_ops : List Opcode :=
  [.IADD, .ISUB, .IMUL, .IDIV, .IREM, .IAND, .IOR, .IXOR, .ISHL, .ISHR]

/-- The image of scenario E2: `BIPUSH 7; BIPUSH 0; IDIV`. -/
def E2_main : function_info :=
  { num_args := 0, num_vars := 0, code := [0x10, 7, 0x10, 0, 0x6C] }

/-- The image of scenario E2. -/
def E2_image : bc0_file :=
  { int_pool := [], string_pool := [], function_pool := [E2_main], native_pool := [] }

/-- The image of scenario E3: `ILDC 0; BIPUSH 31; ISHR; RETURN` with `int_pool[0] = -1`. -/
def E3_main : function_info :=
  { num_args := 0, num_vars := 0, code := [0x13, 0, 0, 0x10, 31, 0x7A, 0xB0] }

/-- The image of scenario E3. -/
def E3_image : bc0_file :=
  { int_pool := [-1], string_pool := [], function_pool := [E3_main], native_pool := [] }

/-- The branch conditions of the six conditional branches as the spec words them, for `a`
pushed before `b`: equality of values for `IF_CMPEQ` and `IF_CMPNE`, signed comparison of `Int`
values for the four ordering branches; `none` when the spec gives no condition. -/
def branch_holds : Opcode → c0_value → c0_value → Option Bool
  | .IF_CMPEQ, a, b => some (val_equal a b)
  | .IF_CMPNE, a, b => some (!val_equal a b)
  | .IF_ICMPLT, .int a, .int b => some (decide (a < b))
  | .IF_ICMPGE, .int a, .int b => some (decide (a ≥ b))
  | .IF_ICMPGT, .int a, .int b => some (decide (a > b))
  | .IF_ICMPLE, .int a, .int b => some (decide (a ≤ b))
  | _, _, _ => none

/-- A loop body `NOP; NOP; NOP; GOTO -3` entered at the `GOTO`. -/
def goto_back_state : State :=
  { S := [], P := [0x00, 0x00, 0x00, 0xA7, 0xFF, 0xFD], pc := 3, V := [], callStack := [],
    H := [] }

/-- A state at `IF_ICMPLT +6` with -1 pushed before 0. -/
def icmplt_state : State :=
  { S := [.int 0, .int (-1)], P := [0xA1, 0x00, 0x06, 0x00, 0x00, 0x00, 0xB0], pc := 0,
    V := [], callStack := [], H := [] }

/-- A state at `IF_ICMPLT +6` with 0 pushed before -1. -/
def icmplt_not_state : State :=
  { S := [.int (-1), .int 0], P := [0xA1, 0x00, 0x06, 0x00, 0x00, 0x00, 0xB0], pc := 0,
    V := [], callStack := [], H := [] }

/-- The callee of scenario E5: `VLOAD 0; VLOAD 1; IADD; RETURN`, two arguments, two locals. -/
def E5_callee : function_info :=
  { num_args := 2, num_vars := 2, code := [0x15, 0, 0x15, 1, 0x60, 0xB0] }

/-- The caller of scenario E5: `BIPUSH 10; BIPUSH 32; INVOKESTATIC 1; RETURN`. -/
def E5_main : function_info :=
  { num_args := 0, num_vars := 0, code := [0x10, 10, 0x10, 32, 0xB8, 0, 1, 0xB0] }

/-- The image of scenario E5. -/
def E5_image : bc0_file :=
  { int_pool := [], string_pool := [], function_pool := [E5_main, E5_callee], native_pool := [] }

/-- A callee with two arguments and three local variables: `VLOAD 0; RETURN`. -/
def callee23 : function_info :=
  { num_args := 2, num_vars := 3, code := [0x15, 0, 0xB0] }

/-- An image whose function 1 is `callee23`. -/
def call_image : bc0_file :=
  { int_pool := [], string_pool := [], function_pool := [E5_main, callee23], native_pool := [] }

/-- The caller of scenario E5 at its `INVOKESTATIC 1`, with 5 beneath the two arguments. -/
def E5_call_state : State :=
  { S := [.int 32, .int 10, .int 5], P := E5_main.code, pc := 4, V := [.int 9],
    callStack := [], H := [] }

/-- The inlined form of scenario E5: `BIPUSH 10; BIPUSH 32; IADD; RETURN`. -/
def E5_inlined_main : function_info :=
  { num_args := 0, num_vars := 0, code := [0x10, 10, 0x10, 32, 0x60, 0xB0] }

/-- The one-function image of the inlined form of scenario E5. -/
def E5_inlined_image : bc0_file :=
  { int_pool := [], string_pool := [], function_pool := [E5_inlined_main], native_pool := [] }

/-- A heap with the string pool, a descriptor of an array of 3 elements of 4 bytes, and its
element buffer as `NEWARRAY` allocates it. -/
def array3_heap : Heap :=
  [.bytes [], .array { count := 3, elt_size := 4, elems := .loc 2 0 },
   zero_bytes (SIZEOF_PTR * 3)]

/-- A state about to execute `AADDS` on the array of `array3_heap` with index `i`. -/
def aadds_state (i : Int) : State :=
  { S := [.int i, .ptr (.loc 1 0)], P := [0x63], pc := 0, V := [], callStack := [],
    H := array3_heap }

/-- Postcondition of a fallible computation: `Q` holds of a result, `R` of a way to stop. -/
def sat {α : Type} (Q : α → Prop) (R : Halt → Prop) : Res α → Prop
  | .ok a => Q a
  | .error e => R e

/-- A state about to execute `NEWARRAY s` with the count `c` on the operand stack; the heap
holds only the (empty) string pool. -/
def newarray_state (s : Nat) (c : Int) : State :=
  { S := [.int c], P := [0xBC, s], pc := 0, V := [], callStack := [], H := [.bytes []] }

/-- The main function of scenario E7: `BIPUSH 3; NEWARRAY 4; DUP; BIPUSH 2; AADDS; BIPUSH 99;
IMSTORE; BIPUSH 2; AADDS; IMLOAD; RETURN`. -/
def E7_main : function_info :=
  { num_args := 0, num_vars := 0,
    code := [0x10, 3, 0xBC, 4, 0x59, 0x10, 2, 0x63, 0x10, 99, 0x4E, 0x10, 2, 0x63, 0x2E, 0xB0] }

/-- The image of scenario E7. -/
def E7_image : bc0_file :=
  { int_pool := [], string_pool := [], function_pool := [E7_main], native_pool := [] }

/-- Scenario E7 with 2 elements of 16 bytes and the index 1: `BIPUSH 2; NEWARRAY 16; DUP;
BIPUSH 1; AADDS; BIPUSH 99; IMSTORE; BIPUSH 1; AADDS; IMLOAD; RETURN`. -/
def E7_wide_main : function_info :=
  { num_args := 0, num_vars := 0,
    code := [0x10, 2, 0xBC, 16, 0x59, 0x10, 1, 0x63, 0x10, 99, 0x4E, 0x10, 1, 0x63, 0x2E, 0xB0] }

/-- The image of the variant of scenario E7 with elements of 16 bytes. -/
def E7_wide_image : bc0_file :=
  { int_pool := [], string_pool := [], function_pool := [E7_wide_main], native_pool := [] }

/-- The main function of scenario E6: `ACONST_NULL; IMLOAD`. -/
def E6_main : function_info :=
  { num_args := 0, num_vars := 0, code := [0x01, 0x2E] }

/-- The image of scenario E6. -/
def E6_image : bc0_file :=
  { int_pool := [], string_pool := [], function_pool := [E6_main], native_pool := [] }

/-- A state about to execute the instruction `code` (opcode and immediates) on the operand
stack `S`, with an empty heap. -/
def instr_state (code : List Nat) (S : List c0_value) : State :=
  { S := S, P := code, pc := 0, V := [], callStack := [], H := [] }

/-- The total instruction lengths in bytes that §6 of the spec declares. -/
def declared_length : Opcode → Option Nat
  | .POP | .DUP | .SWAP => some 1
  | .IADD | .ISUB | .IMUL | .IDIV | .IREM | .IAND | .IOR | .IXOR | .ISHL | .ISHR => some 1
  | .BIPUSH => some 2
  | .ILDC | .ALDC => some 3
  | .ACONST_NULL => some 1
  | .VLOAD | .VSTORE => some 2
  | .ATHROW | .ASSERT => some 1
  | .NOP => some 1
  | .GOTO => some 3
  | .IF_CMPEQ | .IF_CMPNE | .IF_ICMPLT | .IF_ICMPGE | .IF_ICMPGT | .IF_ICMPLE => some 3
  | .INVOKESTATIC | .INVOKENATIVE => some 3
  | .RETURN => some 1
  | .NEW => some 2
  | .IMLOAD | .IMSTORE | .AMLOAD | .AMSTORE | .CMLOAD | .CMSTORE => some 1
  | .AADDF => some 2
  | .NEWARRAY => some 2
  | .ARRAYLENGTH | .AADDS => some 1
  | _ => none

/-- The instructions that transfer control whenever they complete. -/
def transfer_ops : List Opcode := [.GOTO, .INVOKESTATIC, .RETURN]

/-- The six conditional branches. -/
def branch_ops : List Opcode :=
  [.IF_CMPEQ, .IF_CMPNE, .IF_ICMPLT, .IF_ICMPGE, .IF_ICMPGT, .IF_ICMPLE]

/-- A state about to execute `CMSTORE; RETURN`, storing 65 through a reference to a cell of
one byte. -/
def cmstore_state : State :=
  { S := [.int 65, .ptr (.loc 1 0)], P := [0x55, 0xB0], pc := 0, V := [], callStack := [],
    H := [.bytes [], .bytes [.byte 0]] }

/-- The main function of scenario E4: `BIPUSH -1; NEWARRAY 4`. -/
def E4_main : function_info :=
  { num_args := 0, num_vars := 0, code := [0x10, 0xFF, 0xBC, 4] }

/-- The image of scenario E4. -/
def E4_image : bc0_file :=
  { int_pool := [], string_pool := [], function_pool := [E4_main], native_pool := [] }

/-- A state at `IF_CMPEQ +6` whose operand stack holds two equal references above two other
values, with non-empty local variables, call stack and heap. -/
def cmpeq_state : State :=
  { S := [.ptr (.loc 1 0), .ptr (.loc 1 0), .int 7, .ptr .null],
    P := [0x9F, 0x00, 0x06, 0x00, 0x00, 0x00, 0xB0], pc := 0, V := [.int 3],
    callStack := [{ S := [.int 1], P := [0xB0], pc := 0, V := [] }],
    H := [.bytes [], .bytes [.byte 9]] }

/-- The state `cmpeq_state` with two different values on top of the operand stack. -/
def cmpeq_not_state : State :=
  { cmpeq_state with S := [.ptr (.loc 1 0), .int 4, .int 7, .ptr .null] }

/-- A state about to execute `AMSTORE` of the reference `v` through a reference to a fresh
cell of `sizeof(void*)` bytes (object 1). -/
def amstore_state (v : Ptr) : State :=
  { S := [.ptr v, .ptr (.loc 1 0)], P := [0x4F], pc := 0, V := [], callStack := [],
    H := [.bytes [], zero_bytes SIZEOF_PTR] }

/-- A state about to execute `AMLOAD` through the reference to object 1, in the heap `H`. -/
def amload_state (H : Heap) : State :=
  { S := [.ptr (.loc 1 0)], P := [0x2F], pc := 0, V := [], callStack := [], H := H }

/-- A state about to execute `CMLOAD` through the reference to object 1, in the heap `H`. -/
def cmload_state (H : Heap) : State :=
  { S := [.ptr (.loc 1 0)], P := [0x34], pc := 0, V := [], callStack := [], H := H }

/-- The state `cmstore_state` storing the `Int` `v` instead of 65. -/
def cmstore_state_of (v : Int) : State :=
  { cmstore_state with S := [.int v, .ptr (.loc 1 0)] }

/-- A configuration without `DEBUG` whose host functions all raise an assertion failure. -/
def host_assert_cfg : Config where
  ops := c0vm_ops
  DEBUG := false
  native_function_table := fun _ _ _ => .error (.trap .assertion)

/-- An entry of `native_pool` for a host function without arguments. -/
def native_entry : native_info :=
  { num_args := 0, function_table_index := 0 }

/-- An image whose native pool holds `native_entry`. -/
def native_image : bc0_file :=
  { int_pool := [], string_pool := [], function_pool := [E1_main], native_pool := [native_entry] }

/-! # Theorems -/

/-! ## Basic facts about decoding and running -/

theorem Opcode.mem_all (o : Opcode) : o ∈ Opcode.all := by
  cases o <;> simp [Opcode.all]

theorem OpcodeTable.decode_enc (T : OpcodeTable) (o : Opcode) : T.decode (T.enc o) = some o := by
  unfold OpcodeTable.decode
  cases h : Opcode.all.find? (fun a => T.enc a == T.enc o) with
  | none =>
    rw [List.find?_eq_none] at h
    have := h o (Opcode.mem_all o)
    simp at this
  | some a =>
    have := List.find?_some h
    simp only [beq_iff_eq] at this
    rw [T.inj a o this]

theorem step_at (cfg : Config) (bc0 : bc0_file) (s : State) (op : Opcode)
    (h : rd s.P s.pc = .ok (cfg.ops.enc op)) : step cfg bc0 s = exec cfg bc0 s op := by
  simp [step, h, bind, Except.bind, OpcodeTable.decode_enc]

theorem run_ok (cfg : Config) (bc0 : bc0_file) (n : Nat) (s s' : State)
    (h : step cfg bc0 s = .ok s') : run cfg bc0 (n + 1) s = run cfg bc0 n s' := by
  simp [run, h]

theorem run_halt (cfg : Config) (bc0 : bc0_file) (n : Nat) (s : State) (h : Halt)
    (hs : step cfg bc0 s = .error h) : run cfg bc0 (n + 1) s = some h := by
  simp [run, hs]

/-! ## Machine integers -/

theorem wrap32_range (x : Int) : -2147483648 ≤ wrap32 x ∧ wrap32 x < 2147483648 := by
  unfold wrap32; omega

theorem wrap32_mod (x : Int) : wrap32 x % 4294967296 = x % 4294967296 := by
  unfold wrap32; omega

theorem wrap32_id (x : Int) (h1 : -2147483648 ≤ x) (h2 : x < 2147483648) : wrap32 x = x := by
  unfold wrap32; omega

theorem sext8_range (b : Nat) : -128 ≤ sext8 b ∧ sext8 b < 128 := by
  unfold sext8; split_ifs <;> omega

/-! ## Single instructions -/

theorem arith_ok (cfg : Config) (s : State) (f : Int → Int → Res Int) (a b r : Int)
    (rest : List c0_value) (hS : s.S = .int b :: .int a :: rest) (hf : f a b = .ok r) :
    arith cfg s f = .ok { s with S := .int r :: rest, pc := (s.pc + 1) % SIZE_MOD } := by
  cases hd : cfg.DEBUG <;>
    simp [arith, REQUIRES, ASSERT, hS, hf, hd, c0v_pop, val2int, push_int, c0v_push, int2val,
      bind, Except.bind, pure, Except.pure]

theorem arith_err (cfg : Config) (s : State) (f : Int → Int → Res Int) (a b : Int) (h : Halt)
    (rest : List c0_value) (hS : s.S = .int b :: .int a :: rest) (hf : f a b = .error h) :
    arith cfg s f = .error h := by
  cases hd : cfg.DEBUG <;>
    simp [arith, REQUIRES, ASSERT, hS, hf, hd, c0v_pop, val2int, push_int, c0v_push, int2val,
      bind, Except.bind, pure, Except.pure]

theorem exec_BIPUSH (cfg : Config) (bc0 : bc0_file) (s : State) (b : Nat)
    (hb : rd s.P ((s.pc + 1) % SIZE_MOD) = .ok b) :
    exec cfg bc0 s .BIPUSH
      = .ok { s with S := .int (sext8 b) :: s.S, pc := (s.pc + 2) % SIZE_MOD } := by
  cases hd : cfg.DEBUG <;>
    simp [exec, hb, ASSERT, hd, push_int, c0v_push, int2val, bind, Except.bind, pure, Except.pure]

theorem exec_RETURN_top (cfg : Config) (bc0 : bc0_file) (s : State) (v : Int)
    (below : List c0_value) (hS : s.S = .int v :: below) (hcs : s.callStack = [])
    (hdbg : cfg.DEBUG = true → below = []) :
    exec cfg bc0 s .RETURN = .error (.ret v) := by
  cases hd : cfg.DEBUG
  · simp [exec, hS, hcs, ASSERT, IF_DEBUG, hd, c0v_pop, val2int, bind, Except.bind, pure,
      Except.pure]
  · have := hdbg hd
    subst this
    simp [exec, hS, hcs, ASSERT, IF_DEBUG, hd, c0v_pop, val2int, bind, Except.bind, pure,
      Except.pure]

/-! ## Whole runs -/

/-- Two `BIPUSH` instructions at the start of a code array. -/
theorem run_bipush2 (cfg : Config) (bc0 : bc0_file) (x y n : Nat) (tl : List Nat)
    (V : List c0_value) (cs : List frame) (H : Heap) :
    run cfg bc0 (n + 2)
        { S := [], P := cfg.ops.enc .BIPUSH :: x :: cfg.ops.enc .BIPUSH :: y :: tl, pc := 0,
          V := V, callStack := cs, H := H }
      = run cfg bc0 n
        { S := [.int (sext8 y), .int (sext8 x)],
          P := cfg.ops.enc .BIPUSH :: x :: cfg.ops.enc .BIPUSH :: y :: tl, pc := 4,
          V := V, callStack := cs, H := H } := by
  rw [run_ok cfg bc0 (n + 1) _ _
    (by rw [step_at cfg bc0 _ .BIPUSH (by simp [rd])]
        exact exec_BIPUSH cfg bc0 _ x (by simp [rd, SIZE_MOD]))]
  rw [run_ok cfg bc0 n _ _
    (by rw [step_at cfg bc0 _ .BIPUSH (by simp [rd, SIZE_MOD])]
        exact exec_BIPUSH cfg bc0 _ y (by simp [rd, SIZE_MOD]))]
  simp [SIZE_MOD]

theorem init_ok (bc0 : bc0_file) (f : function_info) (rest : List function_info)
    (hpool : bc0.function_pool = f :: rest) :
    init bc0 = .ok { S := [], P := f.code, pc := 0, V := List.replicate f.num_vars zero_value,
                     callStack := [], H := [.bytes (bc0.string_pool.map .byte)] } := by
  simp [init, hpool, rd, bind, Except.bind, pure, Except.pure]

/-- The one-function program `BIPUSH x; BIPUSH y; op; RETURN` for an arithmetic handler. -/
theorem run_bipush2_arith_return (cfg : Config) (bc0 : bc0_file) (op : Opcode)
    (g : Int → Int → Res Int) (hop : ∀ s, exec cfg bc0 s op = arith cfg s g)
    (x y k : Nat) (r : Int) (hg : g (sext8 x) (sext8 y) = .ok r)
    (f : function_info) (rest : List function_info)
    (hpool : bc0.function_pool = f :: rest)
    (hcode : f.code = [cfg.ops.enc .BIPUSH, x, cfg.ops.enc .BIPUSH, y, cfg.ops.enc op,
      cfg.ops.enc .RETURN]) :
    execute cfg bc0 (4 + k) = some (.ret r) := by
  unfold execute
  rw [init_ok bc0 f rest hpool, hcode]
  simp only
  rw [show 4 + k = (k + 2) + 2 by omega, run_bipush2]
  rw [run_ok cfg bc0 (k + 1) _ _
    (by rw [step_at cfg bc0 _ op (by simp [rd]), hop]
        exact arith_ok cfg _ g (sext8 x) (sext8 y) r [] rfl hg)]
  rw [run_halt cfg bc0 k _ (.ret r)
    (by rw [step_at cfg bc0 _ .RETURN (by simp [rd, SIZE_MOD])]
        exact exec_RETURN_top cfg bc0 _ r [] rfl rfl (fun _ => rfl))]

/-- C1: for all bytes `x`, `y` the one-function program `BIPUSH x; BIPUSH y; IADD; RETURN`
stops after four iterations, for every larger number of iterations allowed, and `execute`
returns `sext8 x + sext8 y`, a 32-bit integer; for `x = 2`, `y = 3` it returns 5. A `RETURN`
step with an empty call stack and `Int(v)` on top of the operand stack makes `execute` return
`v` (when `DEBUG` is defined the operand stack holds nothing else, as its `ASSERT` demands). -/
theorem C1_bipush_iadd_return (cfg : Config) :
    (∀ (bc0 : bc0_file) (f : function_info) (rest : List function_info) (x y k : Nat),
        bc0.function_pool = f :: rest →
        f.code = [cfg.ops.enc .BIPUSH, x, cfg.ops.enc .BIPUSH, y, cfg.ops.enc .IADD,
          cfg.ops.enc .RETURN] →
        execute cfg bc0 (4 + k) = some (.ret (sext8 x + sext8 y))
          ∧ -2147483648 ≤ sext8 x + sext8 y ∧ sext8 x + sext8 y < 2147483648)
    ∧ (∀ (bc0 : bc0_file) (f : function_info) (rest : List function_info) (k : Nat),
        bc0.function_pool = f :: rest →
        f.code = [cfg.ops.enc .BIPUSH, 2, cfg.ops.enc .BIPUSH, 3, cfg.ops.enc .IADD,
          cfg.ops.enc .RETURN] →
        execute cfg bc0 (4 + k) = some (.ret 5))
    ∧ (∀ (bc0 : bc0_file) (s : State) (v : Int) (below : List c0_value) (k : Nat),
        rd s.P s.pc = .ok (cfg.ops.enc .RETURN) → s.callStack = [] → s.S = .int v :: below →
        (cfg.DEBUG = true → below = []) →
        step cfg bc0 s = .error (.ret v) ∧ run cfg bc0 (k + 1) s = some (.ret v)) := by
  have main : ∀ (bc0 : bc0_file) (f : function_info) (rest : List function_info) (x y k : Nat),
      bc0.function_pool = f :: rest →
      f.code = [cfg.ops.enc .BIPUSH, x, cfg.ops.enc .BIPUSH, y, cfg.ops.enc .IADD,
        cfg.ops.enc .RETURN] →
      execute cfg bc0 (4 + k) = some (.ret (sext8 x + sext8 y)) := by
    intro bc0 f rest x y k hpool hcode
    have hx := sext8_range x
    have hy := sext8_range y
    refine run_bipush2_arith_return cfg bc0 .IADD _ (fun s => rfl) x y k _ ?_ f rest hpool hcode
    simp only [wrap32_id (sext8 x + sext8 y) (by omega) (by omega)]
  refine ⟨?_, ?_, ?_⟩
  · intro bc0 f rest x y k hpool hcode
    have hx := sext8_range x
    have hy := sext8_range y
    exact ⟨main bc0 f rest x y k hpool hcode, by omega, by omega⟩
  · intro bc0 f rest k hpool hcode
    exact main bc0 f rest 2 3 k hpool hcode
  · intro bc0 s v below k hop hcs hS hdbg
    have hstep : step cfg bc0 s = .error (.ret v) := by
      rw [step_at cfg bc0 s .RETURN hop]
      exact exec_RETURN_top cfg bc0 s v below hS hcs hdbg
    exact ⟨hstep, run_halt cfg bc0 k s _ hstep⟩

theorem C1_bipush_iadd_return_witness :
    execute c0vm_cfg E1_image 4 = some (.ret 5)
      ∧ step c0vm_cfg E1_image ret7_state = .error (.ret 7) :=
  ⟨((C1_bipush_iadd_return c0vm_cfg).1 E1_image E1_main [] 2 3 0 rfl rfl).1,
   ((C1_bipush_iadd_return c0vm_cfg).2.2 E1_image ret7_state 7 [] 0 rfl rfl rfl (fun _ => rfl)).1⟩

/-! ## Arithmetic -/

/-- C2: with `a` pushed before `b`, a step of `IADD`, `ISUB` or `IMUL` does not trap, pops both
and pushes the value in the 32-bit range that is congruent modulo 2^32 to `a + b`, `a - b` or
`a * b` respectively; `a` is the left operand of `ISUB`. -/
theorem C2_iadd_isub_imul_wrap (cfg : Config) (bc0 : bc0_file) (s : State) (a b : Int)
    (rest : List c0_value) (hS : s.S = .int b :: .int a :: rest) :
    (rd s.P s.pc = .ok (cfg.ops.enc .IADD) →
      ∃ r : Int, step cfg bc0 s = .ok { s with S := .int r :: rest, pc := (s.pc + 1) % SIZE_MOD }
        ∧ -2147483648 ≤ r ∧ r < 2147483648 ∧ r % 4294967296 = (a + b) % 4294967296)
    ∧ (rd s.P s.pc = .ok (cfg.ops.enc .ISUB) →
      ∃ r : Int, step cfg bc0 s = .ok { s with S := .int r :: rest, pc := (s.pc + 1) % SIZE_MOD }
        ∧ -2147483648 ≤ r ∧ r < 2147483648 ∧ r % 4294967296 = (a - b) % 4294967296)
    ∧ (rd s.P s.pc = .ok (cfg.ops.enc .IMUL) →
      ∃ r : Int, step cfg bc0 s = .ok { s with S := .int r :: rest, pc := (s.pc + 1) % SIZE_MOD }
        ∧ -2147483648 ≤ r ∧ r < 2147483648 ∧ r % 4294967296 = (a * b) % 4294967296) := by
  refine ⟨?_, ?_, ?_⟩
  · intro hop
    refine ⟨wrap32 (a + b), ?_, (wrap32_range _).1, (wrap32_range _).2, wrap32_mod _⟩
    rw [step_at cfg bc0 s .IADD hop]
    exact arith_ok cfg s _ a b _ rest hS rfl
  · intro hop
    refine ⟨wrap32 (a - b), ?_, (wrap32_range _).1, (wrap32_range _).2, wrap32_mod _⟩
    rw [step_at cfg bc0 s .ISUB hop]
    exact arith_ok cfg s _ a b _ rest hS rfl
  · intro hop
    refine ⟨wrap32 (a * b), ?_, (wrap32_range _).1, (wrap32_range _).2, wrap32_mod _⟩
    rw [step_at cfg bc0 s .IMUL hop]
    exact arith_ok cfg s _ a b _ rest hS rfl

theorem C2_iadd_isub_imul_wrap_witness :
    (∃ r : Int, step c0vm_cfg E1_image (binop_state 0x60 2147483647 1)
        = .ok { binop_state 0x60 2147483647 1 with S := [.int r], pc := (0 + 1) % SIZE_MOD }
        ∧ -2147483648 ≤ r ∧ r < 2147483648 ∧ r % 4294967296 = (2147483647 + 1) % 4294967296)
    ∧ (∃ r : Int, step c0vm_cfg E1_image (binop_state 0x64 (-2147483648) 1)
        = .ok { binop_state 0x64 (-2147483648) 1 with S := [.int r], pc := (0 + 1) % SIZE_MOD }
        ∧ -2147483648 ≤ r ∧ r < 2147483648 ∧ r % 4294967296 = (-2147483648 - 1) % 4294967296)
    ∧ (∃ r : Int, step c0vm_cfg E1_image (binop_state 0x68 65536 65536)
        = .ok { binop_state 0x68 65536 65536 with S := [.int r], pc := (0 + 1) % SIZE_MOD }
        ∧ -2147483648 ≤ r ∧ r < 2147483648 ∧ r % 4294967296 = (65536 * 65536) % 4294967296) :=
  ⟨(C2_iadd_isub_imul_wrap c0vm_cfg E1_image (binop_state 0x60 2147483647 1)
      2147483647 1 [] rfl).1 rfl,
   (C2_iadd_isub_imul_wrap c0vm_cfg E1_image (binop_state 0x64 (-2147483648) 1)
      (-2147483648) 1 [] rfl).2.1 rfl,
   (C2_iadd_isub_imul_wrap c0vm_cfg E1_image (binop_state 0x68 65536 65536)
      65536 65536 [] rfl).2.2 rfl⟩

theorem tmod_facts (a b : Int) (hb : b ≠ 0) :
    (Int.tmod a b).natAbs < b.natAbs ∧ (0 ≤ a → 0 ≤ Int.tmod a b) ∧ (a ≤ 0 → Int.tmod a b ≤ 0) := by
  rcases a with m | m <;> rcases b with n | n
  · have hn : 0 < n := by
      rcases n with _ | n
      · exact absurd rfl hb
      · exact Nat.succ_pos n
    have := Nat.mod_lt m hn
    simp only [Int.tmod, Int.ofNat_eq_coe, Int.negSucc_eq, Nat.succ_eq_add_one] at *
    refine ⟨by omega, by omega, fun h => ?_⟩
    have hm : m = 0 := by omega
    subst hm
    simp
  · have := Nat.mod_lt m (Nat.succ_pos n)
    simp only [Int.tmod, Int.ofNat_eq_coe, Int.negSucc_eq, Nat.succ_eq_add_one] at *
    refine ⟨by omega, by omega, fun h => ?_⟩
    have hm : m = 0 := by omega
    subst hm
    simp
  · have hn : 0 < n := by
      rcases n with _ | n
      · exact absurd rfl hb
      · exact Nat.succ_pos n
    have := Nat.mod_lt (m + 1) hn
    simp only [Int.tmod, Int.ofNat_eq_coe, Int.negSucc_eq, Nat.succ_eq_add_one] at *
    refine ⟨by omega, by omega, by omega⟩
  · have := Nat.mod_lt (m + 1) (Nat.succ_pos n)
    simp only [Int.tmod, Int.ofNat_eq_coe, Int.negSucc_eq, Nat.succ_eq_add_one] at *
    refine ⟨by omega, by omega, by omega⟩

theorem tdiv_range (a b : Int) (ha1 : -2147483648 ≤ a) (ha2 : a < 2147483648)
    (hb : b ≠ 0) (hmin : ¬ (a = -2147483648 ∧ b = -1)) :
    -2147483648 ≤ Int.tdiv a b ∧ Int.tdiv a b < 2147483648 := by
  have h1 := Int.natAbs_tdiv a b
  have h2 : (a.natAbs).div (b.natAbs) ≤ a.natAbs := Nat.div_le_self _ _
  by_cases hb1 : b = -1
  · subst hb1
    have : Int.tdiv a (-1) = -a := by
      rw [Int.tdiv_neg, Int.tdiv_one]
    rw [this]
    omega
  · by_cases hb2 : b = 1
    · subst hb2
      simp
      omega
    · have h3 : 2 ≤ b.natAbs := by omega
      have h4 : (a.natAbs).div (b.natAbs) ≤ a.natAbs / 2 := by
        show a.natAbs / b.natAbs ≤ a.natAbs / 2
        exact Nat.div_le_div_left h3 (by norm_num)
      omega

/-- C3: for a 32-bit `a` and `b ≠ 0`, not (`a = INT_MIN` and `b = -1`), with `a` pushed before
`b`, a step of `IDIV` does not trap and leaves the quotient truncated toward zero on top, and a
step of `IREM` leaves `a - trunc(a/b) * b`; the quotient is a 32-bit integer, and the remainder
is smaller than `b` in absolute value and has the sign of `a`. -/
theorem C3_idiv_irem_truncate (cfg : Config) (bc0 : bc0_file) (s : State) (a b : Int)
    (rest : List c0_value) (hS : s.S = .int b :: .int a :: rest)
    (ha : -2147483648 ≤ a ∧ a < 2147483648)
    (hb0 : b ≠ 0) (hmin : ¬ (a = INT_MIN ∧ b = -1)) :
    (rd s.P s.pc = .ok (cfg.ops.enc .IDIV) →
      step cfg bc0 s
        = .ok { s with S := .int (Int.tdiv a b) :: rest, pc := (s.pc + 1) % SIZE_MOD })
    ∧ (rd s.P s.pc = .ok (cfg.ops.enc .IREM) →
      step cfg bc0 s
        = .ok { s with S := .int (a - Int.tdiv a b * b) :: rest, pc := (s.pc + 1) % SIZE_MOD })
    ∧ (-2147483648 ≤ Int.tdiv a b ∧ Int.tdiv a b < 2147483648)
    ∧ (a - Int.tdiv a b * b).natAbs < b.natAbs
    ∧ (0 ≤ a → 0 ≤ a - Int.tdiv a b * b)
    ∧ (a ≤ 0 → a - Int.tdiv a b * b ≤ 0) := by
  have hchk : div_check a b = .ok () := by
    simp only [div_check]
    rw [if_neg hmin, if_neg hb0]
  have hrem : Int.tmod a b = a - Int.tdiv a b * b := by
    have := Int.tmod_add_tdiv a b
    rw [Int.mul_comm] at this
    omega
  have hf := tmod_facts a b hb0
  rw [hrem] at hf
  refine ⟨?_, ?_, tdiv_range a b ha.1 ha.2 hb0 hmin, hf.1, hf.2.1, hf.2.2⟩
  · intro hop
    rw [step_at cfg bc0 s .IDIV hop]
    exact arith_ok cfg s _ a b _ rest hS
      (by simp [hchk, bind, Except.bind, pure, Except.pure])
  · intro hop
    rw [step_at cfg bc0 s .IREM hop, ← hrem]
    exact arith_ok cfg s _ a b _ rest hS
      (by simp [hchk, bind, Except.bind, pure, Except.pure])

theorem C3_idiv_irem_truncate_witness :
    step c0vm_cfg E1_image (binop_state 0x6C (-7) 2)
        = .ok { binop_state 0x6C (-7) 2 with S := [.int (Int.tdiv (-7) 2)], pc := (0 + 1) % SIZE_MOD }
    ∧ step c0vm_cfg E1_image (binop_state 0x70 (-7) 2)
        = .ok { binop_state 0x70 (-7) 2 with S := [.int (-7 - Int.tdiv (-7) 2 * 2)], pc := (0 + 1) % SIZE_MOD } :=
  ⟨(C3_idiv_irem_truncate c0vm_cfg E1_image (binop_state 0x6C (-7) 2) (-7) 2 [] rfl
      (by decide) (by decide) (by decide)).1 rfl,
   (C3_idiv_irem_truncate c0vm_cfg E1_image (binop_state 0x70 (-7) 2) (-7) 2 [] rfl
      (by decide) (by decide) (by decide)).2.1 rfl⟩

theorem div_check_err (a b : Int) (h : b = 0 ∨ (a = INT_MIN ∧ b = -1)) :
    div_check a b = .error (.trap .arith) := by
  unfold div_check c0_arith_error
  split_ifs with h1 h2
  · rfl
  · rfl
  · rcases h with h | h
    · exact absurd h h2
    · exact absurd h h1

theorem div_check_ok (a b : Int) (h : ¬ (b = 0 ∨ (a = INT_MIN ∧ b = -1))) :
    div_check a b = .ok () := by
  unfold div_check
  rw [if_neg (fun h1 => h (Or.inr h1)), if_neg (fun h2 => h (Or.inl h2))]

theorem shift_check_err (b : Int) (h : b < 0 ∨ b > 31) :
    shift_check b = .error (.trap .arith) := by
  unfold shift_check c0_arith_error
  rw [if_pos h]

theorem shift_check_ok (b : Int) (h : ¬ (b < 0 ∨ b > 31)) : shift_check b = .ok () := by
  unfold shift_check
  rw [if_neg h]

/-- Three instructions `BIPUSH x; BIPUSH y; op` whose handler traps on `(x, y)`. -/
theorem run_bipush2_arith_trap (cfg : Config) (bc0 : bc0_file) (op : Opcode)
    (g : Int → Int → Res Int) (hop : ∀ s, exec cfg bc0 s op = arith cfg s g)
    (x y k : Nat) (h : Halt) (hg : g (sext8 x) (sext8 y) = .error h)
    (f : function_info) (rest : List function_info) (tl : List Nat)
    (hpool : bc0.function_pool = f :: rest)
    (hcode : f.code = cfg.ops.enc .BIPUSH :: x :: cfg.ops.enc .BIPUSH :: y :: cfg.ops.enc op
      :: tl) :
    execute cfg bc0 (3 + k) = some h := by
  unfold execute
  rw [init_ok bc0 f rest hpool, hcode]
  simp only
  rw [show 3 + k = (k + 1) + 2 by omega, run_bipush2]
  rw [run_halt cfg bc0 k _ h
    (by rw [step_at cfg bc0 _ op (by simp [rd]), hop]
        exact arith_err cfg _ g (sext8 x) (sext8 y) h [] rfl hg)]

theorem arith_trap_iff (cfg : Config) (s : State) (f : Int → Int → Res Int) (a b : Int)
    (rest : List c0_value) (hS : s.S = .int b :: .int a :: rest) (C : Prop)
    (h1 : C → f a b = .error (.trap .arith)) (h2 : ¬ C → ∃ r, f a b = .ok r) :
    (arith cfg s f = .error (.trap .arith) ↔ C)
      ∧ (¬ C → ∃ s', arith cfg s f = .ok s') := by
  by_cases hC : C
  · have := arith_err cfg s f a b _ rest hS (h1 hC)
    exact ⟨⟨fun _ => hC, fun _ => this⟩, fun h => absurd hC h⟩
  · obtain ⟨r, hr⟩ := h2 hC
    have := arith_ok cfg s f a b r rest hS hr
    refine ⟨⟨fun h => ?_, fun h => absurd h hC⟩, fun _ => ⟨_, this⟩⟩
    rw [this] at h
    cases h

/-- C4: with `a` pushed before `b`, a step of one of the ten arithmetic, logic and shift
instructions ends in an arith-error trap exactly when the opcode is `IDIV` or `IREM` and
(`b = 0` or (`a = INT_MIN` and `b = -1`)), or the opcode is `ISHL` or `ISHR` and (`b < 0` or
`b > 31`); in every other case the step succeeds, so `IADD`, `ISUB`, `IMUL`, `IAND`, `IOR`
and `IXOR` never trap. The program `BIPUSH 7; BIPUSH 0; IDIV` traps with arith-error. -/
theorem C4_arith_error_iff (cfg : Config) (bc0 : bc0_file) (s : State) (op : Opcode)
    (a b : Int) (rest : List c0_value) (hop : op ∈ arith_ops)
    (hpc : rd s.P s.pc = .ok (cfg.ops.enc op)) (hS : s.S = .int b :: .int a :: rest) :
    (step cfg bc0 s = .error (.trap .arith) ↔
        ((op = .IDIV ∨ op = .IREM) ∧ (b = 0 ∨ (a = INT_MIN ∧ b = -1)))
        ∨ ((op = .ISHL ∨ op = .ISHR) ∧ (b < 0 ∨ b > 31)))
    ∧ (step cfg bc0 s ≠ .error (.trap .arith) → ∃ s', step cfg bc0 s = .ok s')
    ∧ (op ∈ [Opcode.IADD, .ISUB, .IMUL, .IAND, .IOR, .IXOR] → ∃ s', step cfg bc0 s = .ok s')
    ∧ (∀ (img : bc0_file) (f : function_info) (fs : List function_info) (k : Nat),
        img.function_pool = f :: fs →
        f.code = [cfg.ops.enc .BIPUSH, 7, cfg.ops.enc .BIPUSH, 0, cfg.ops.enc .IDIV] →
        execute cfg img (3 + k) = some (.trap .arith)) := by
  have hE2 : ∀ (img : bc0_file) (f : function_info) (fs : List function_info) (k : Nat),
      img.function_pool = f :: fs →
      f.code = [cfg.ops.enc .BIPUSH, 7, cfg.ops.enc .BIPUSH, 0, cfg.ops.enc .IDIV] →
      execute cfg img (3 + k) = some (.trap .arith) := by
    intro img f fs k hpool hcode
    exact run_bipush2_arith_trap cfg img .IDIV _ (fun s => rfl) 7 0 k _ rfl f fs [] hpool hcode
  have hdiv : ∀ g : Int → Int → Int,
      (step cfg bc0 s = arith cfg s (fun v_2 v_1 => do div_check v_2 v_1; pure (g v_2 v_1))) →
      (step cfg bc0 s = .error (.trap .arith) ↔ (b = 0 ∨ (a = INT_MIN ∧ b = -1)))
        ∧ (¬ (b = 0 ∨ (a = INT_MIN ∧ b = -1)) → ∃ s', step cfg bc0 s = .ok s') := by
    intro g hg
    rw [hg]
    exact arith_trap_iff cfg s _ a b rest hS _
      (fun h => by simp [div_check_err a b h, bind, Except.bind])
      (fun h => ⟨g a b, by simp [div_check_ok a b h, bind, Except.bind, pure, Except.pure]⟩)
  have hshift : ∀ g : Int → Int → Int,
      (step cfg bc0 s = arith cfg s (fun v_2 v_1 => do shift_check v_1; pure (g v_2 v_1))) →
      (step cfg bc0 s = .error (.trap .arith) ↔ (b < 0 ∨ b > 31))
        ∧ (¬ (b < 0 ∨ b > 31) → ∃ s', step cfg bc0 s = .ok s') := by
    intro g hg
    rw [hg]
    exact arith_trap_iff cfg s _ a b rest hS _
      (fun h => by simp [shift_check_err b h, bind, Except.bind])
      (fun h => ⟨g a b, by simp [shift_check_ok b h, bind, Except.bind, pure, Except.pure]⟩)
  have hplain : ∀ g : Int → Int → Int,
      (step cfg bc0 s = arith cfg s (fun v_2 v_1 => .ok (g v_2 v_1))) →
      (step cfg bc0 s = .error (.trap .arith) ↔ False)
        ∧ (¬ False → ∃ s', step cfg bc0 s = .ok s') := by
    intro g hg
    rw [hg]
    exact arith_trap_iff cfg s _ a b rest hS _ (fun h => h.elim) (fun _ => ⟨g a b, rfl⟩)
  have hstep := step_at cfg bc0 s op hpc
  simp only [arith_ops, List.mem_cons, List.mem_singleton, List.not_mem_nil, or_false] at hop
  rcases hop with rfl | rfl | rfl | rfl | rfl | rfl | rfl | rfl | rfl | rfl
  · obtain ⟨h1, h2⟩ := hplain _ hstep
    exact ⟨by simp [h1], fun _ => h2 not_false, fun _ => h2 not_false, hE2⟩
  · obtain ⟨h1, h2⟩ := hplain _ hstep
    exact ⟨by simp [h1], fun _ => h2 not_false, fun _ => h2 not_false, hE2⟩
  · obtain ⟨h1, h2⟩ := hplain _ hstep
    exact ⟨by simp [h1], fun _ => h2 not_false, fun _ => h2 not_false, hE2⟩
  · obtain ⟨h1, h2⟩ := hdiv _ hstep
    exact ⟨by simp [h1], fun h => h2 (fun hc => h (h1.2 hc)), fun h => by simp at h, hE2⟩
  · obtain ⟨h1, h2⟩ := hdiv _ hstep
    exact ⟨by simp [h1], fun h => h2 (fun hc => h (h1.2 hc)), fun h => by simp at h, hE2⟩
  · obtain ⟨h1, h2⟩ := hplain _ hstep
    exact ⟨by simp [h1], fun _ => h2 not_false, fun _ => h2 not_false, hE2⟩
  · obtain ⟨h1, h2⟩ := hplain _ hstep
    exact ⟨by simp [h1], fun _ => h2 not_false, fun _ => h2 not_false, hE2⟩
  · obtain ⟨h1, h2⟩ := hplain _ hstep
    exact ⟨by simp [h1], fun _ => h2 not_false, fun _ => h2 not_false, hE2⟩
  · obtain ⟨h1, h2⟩ := hshift _ hstep
    exact ⟨by simp [h1], fun h => h2 (fun hc => h (h1.2 hc)), fun h => by simp at h, hE2⟩
  · obtain ⟨h1, h2⟩ := hshift _ hstep
    exact ⟨by simp [h1], fun h => h2 (fun hc => h (h1.2 hc)), fun h => by simp at h, hE2⟩

theorem C4_arith_error_iff_witness :
    (step c0vm_cfg E2_image (binop_state 0x6C 7 0) = .error (.trap .arith) ↔
        ((Opcode.IDIV = .IDIV ∨ Opcode.IDIV = .IREM)
          ∧ ((0 : Int) = 0 ∨ ((7 : Int) = INT_MIN ∧ (0 : Int) = -1)))
        ∨ ((Opcode.IDIV = .ISHL ∨ Opcode.IDIV = .ISHR) ∧ ((0 : Int) < 0 ∨ (0 : Int) > 31)))
      ∧ execute c0vm_cfg E2_image 3 = some (.trap .arith) :=
  ⟨(C4_arith_error_iff c0vm_cfg E2_image (binop_state 0x6C 7 0) .IDIV 7 0 []
      (by decide) rfl rfl).1,
   (C4_arith_error_iff c0vm_cfg E2_image (binop_state 0x6C 7 0) .IDIV 7 0 []
      (by decide) rfl rfl).2.2.2 E2_image E2_main [] 0 rfl rfl⟩

theorem shl_mod (a : Int) (n : Nat) :
    wrap32 ((toU32 a <<< n : Nat) : Int) % 4294967296 = (a * 2 ^ n) % 4294967296 := by
  rw [wrap32_mod, Nat.shiftLeft_eq]
  unfold toU32
  push_cast
  rw [Int.toNat_of_nonneg (Int.emod_nonneg a (by norm_num))]
  rw [Int.mul_emod, Int.emod_emod_of_dvd a (dvd_refl _), ← Int.mul_emod]

theorem shr_floor (a : Int) (n : Nat) :
    (a >>> n) * 2 ^ n ≤ a ∧ a < (a >>> n + 1) * 2 ^ n := by
  rw [Int.shiftRight_eq_div_pow]
  have hpos : (0 : Int) < ((2 ^ n : Nat) : Int) := by positivity
  have h1 := Int.ediv_mul_le a (ne_of_gt hpos)
  have h2 := Int.lt_ediv_add_one_mul_self a hpos
  push_cast at h1 h2 ⊢
  exact ⟨h1, h2⟩

theorem shr_range (a : Int) (n : Nat) (ha : -2147483648 ≤ a ∧ a < 2147483648) :
    -2147483648 ≤ a >>> n ∧ a >>> n < 2147483648 := by
  obtain ⟨h1, h2⟩ := shr_floor a n
  have hp : (1 : Int) ≤ 2 ^ n := by
    have : (0 : Int) < 2 ^ n := by positivity
    omega
  constructor
  · by_contra hc
    have : a >>> n + 1 ≤ -2147483648 := by omega
    have h3 : (a >>> n + 1) * 2 ^ n ≤ (-2147483648) * 1 := by
      nlinarith
    omega
  · by_contra hc
    have : (2147483648 : Int) ≤ a >>> n := by omega
    have h3 : (2147483648 : Int) * 1 ≤ (a >>> n) * 2 ^ n := by
      nlinarith
    omega

/-- C5: for a 32-bit `a` and a shift amount `n` with `0 ≤ n ≤ 31`, `a` pushed before `n`, a
step of `ISHL` pushes the 32-bit value congruent to `a * 2^n` modulo 2^32 (the low 32 bits of
the product, read as signed), and a step of `ISHR` pushes the arithmetic right shift, the
floor `q` of `a / 2^n` (`q * 2^n ≤ a < (q + 1) * 2^n`). With `int_pool[0] = -1` the program
`ILDC 0; BIPUSH 31; ISHR; RETURN` makes `execute` return -1. -/
theorem C5_ishl_ishr (cfg : Config) (bc0 : bc0_file) (s : State) (a : Int) (n : Nat)
    (rest : List c0_value) (hS : s.S = .int (n : Int) :: .int a :: rest) (hn : n ≤ 31)
    (ha : -2147483648 ≤ a ∧ a < 2147483648) :
    (rd s.P s.pc = .ok (cfg.ops.enc .ISHL) →
      ∃ r : Int, step cfg bc0 s = .ok { s with S := .int r :: rest, pc := (s.pc + 1) % SIZE_MOD }
        ∧ -2147483648 ≤ r ∧ r < 2147483648 ∧ r % 4294967296 = (a * 2 ^ n) % 4294967296)
    ∧ (rd s.P s.pc = .ok (cfg.ops.enc .ISHR) →
      ∃ q : Int, step cfg bc0 s = .ok { s with S := .int q :: rest, pc := (s.pc + 1) % SIZE_MOD }
        ∧ -2147483648 ≤ q ∧ q < 2147483648 ∧ q * 2 ^ n ≤ a ∧ a < (q + 1) * 2 ^ n)
    ∧ (∀ (img : bc0_file) (f : function_info) (fs : List function_info) (ints : List Int)
        (k : Nat), img.function_pool = f :: fs → img.int_pool = (-1) :: ints →
        f.code = [cfg.ops.enc .ILDC, 0, 0, cfg.ops.enc .BIPUSH, 31, cfg.ops.enc .ISHR,
          cfg.ops.enc .RETURN] →
        execute cfg img (4 + k) = some (.ret (-1))) := by
  have hchk : shift_check (n : Int) = .ok () := shift_check_ok _ (by omega)
  refine ⟨?_, ?_, ?_⟩
  · intro hop
    refine ⟨wrap32 ((toU32 a <<< n : Nat) : Int), ?_, (wrap32_range _).1, (wrap32_range _).2,
      shl_mod a n⟩
    rw [step_at cfg bc0 s .ISHL hop]
    exact arith_ok cfg s _ a n _ rest hS
      (by simp [hchk, bind, Except.bind, pure, Except.pure])
  · intro hop
    refine ⟨a >>> n, ?_, (shr_range a n ha).1, (shr_range a n ha).2, (shr_floor a n).1,
      (shr_floor a n).2⟩
    rw [step_at cfg bc0 s .ISHR hop]
    exact arith_ok cfg s _ a n _ rest hS
      (by simp [hchk, bind, Except.bind, pure, Except.pure])
  · intro img f fs ints k hpool hints hcode
    unfold execute
    rw [init_ok img f fs hpool, hcode]
    simp only
    rw [show 4 + k = k + 1 + 1 + 1 + 1 by omega]
    rw [run_ok cfg img (k + 1 + 1 + 1) _
      { S := [.int (-1)], P := [cfg.ops.enc .ILDC, 0, 0, cfg.ops.enc .BIPUSH, 31,
          cfg.ops.enc .ISHR, cfg.ops.enc .RETURN], pc := 3,
        V := List.replicate f.num_vars zero_value, callStack := [],
        H := [.bytes (img.string_pool.map .byte)] }
      (by rw [step_at cfg img _ .ILDC (by simp [rd])]
          simp [exec, imm16, rd, hints, u16, push_int, c0v_push, int2val, SIZE_MOD, bind,
            Except.bind, pure, Except.pure])]
    rw [run_ok cfg img (k + 1 + 1) _ _
      (by rw [step_at cfg img _ .BIPUSH (by simp [rd])]
          exact exec_BIPUSH cfg img _ 31 (by simp [rd, SIZE_MOD]))]
    rw [run_ok cfg img (k + 1) _ _
      (by rw [step_at cfg img _ .ISHR (by simp [rd, SIZE_MOD])]
          refine arith_ok cfg _ _ (-1) (sext8 31) (-1) [] rfl ?_
          have h31 : sext8 31 = 31 := by decide
          have hsh : (-1 : Int) >>> (31 : Nat) = -1 := by decide
          simp [h31, hsh, shift_check_ok 31 (by decide), bind, Except.bind, pure, Except.pure])]
    rw [run_halt cfg img k _ (.ret (-1))
      (by rw [step_at cfg img _ .RETURN (by simp [rd, SIZE_MOD])]
          exact exec_RETURN_top cfg img _ (-1) [] rfl rfl (fun _ => rfl))]

theorem C5_ishl_ishr_witness :
    (∃ r : Int, step c0vm_cfg E3_image (binop_state 0x78 (-3) 31)
        = .ok { binop_state 0x78 (-3) 31 with S := [.int r], pc := (0 + 1) % SIZE_MOD }
        ∧ -2147483648 ≤ r ∧ r < 2147483648 ∧ r % 4294967296 = (-3 * 2 ^ 31) % 4294967296)
    ∧ (∃ q : Int, step c0vm_cfg E3_image (binop_state 0x7A (-3) 1)
        = .ok { binop_state 0x7A (-3) 1 with S := [.int q], pc := (0 + 1) % SIZE_MOD }
        ∧ -2147483648 ≤ q ∧ q < 2147483648 ∧ q * 2 ^ 1 ≤ -3 ∧ -3 < (q + 1) * 2 ^ 1)
    ∧ execute c0vm_cfg E3_image 4 = some (.ret (-1)) :=
  ⟨(C5_ishl_ishr c0vm_cfg E3_image (binop_state 0x78 (-3) 31) (-3) 31 [] rfl (by decide)
      (by decide)).1 rfl,
   (C5_ishl_ishr c0vm_cfg E3_image (binop_state 0x7A (-3) 1) (-3) 1 [] rfl (by decide)
      (by decide)).2.1 rfl,
   (C5_ishl_ishr c0vm_cfg E3_image (binop_state 0x7A (-3) 1) (-3) 1 [] rfl (by decide)
      (by decide)).2.2 E3_image E3_main [] [] 0 rfl rfl rfl⟩

/-! ## Control flow -/

theorem val_equal_comm (a b : c0_value) : val_equal a b = val_equal b a := by
  cases a <;> cases b <;> simp [val_equal, eq_comm]

theorem rd_lt {α : Type} (A : List α) (i : Nat) (a : α) (h : rd A i = .ok a) : i < A.length := by
  unfold rd at h
  cases hi : A[i]? with
  | none => rw [hi] at h; cases h
  | some x =>
    by_contra hc
    rw [List.getElem?_eq_none (by omega)] at hi
    cases hi

theorem sext16_range (w : Nat) : -32768 ≤ sext16 w ∧ sext16 w < 32768 := by
  unfold sext16; split_ifs <;> omega

theorem jump_eq (P : List Nat) (pc b1 b2 : Nat) (hP : P.length < 2 ^ 63)
    (h1 : rd P (pc + 1) = .ok b1) (h2 : rd P (pc + 2) = .ok b2) (hb1 : b1 < 256)
    (hb2 : b2 < 256) (hoff : 0 ≤ (pc : Int) + sext16 (b1 <<< 8 ||| b2)) :
    jump P ((pc + 1) % SIZE_MOD) = .ok ((pc : Int) + sext16 (b1 <<< 8 ||| b2)).toNat := by
  have hl := rd_lt P (pc + 2) b2 h2
  have hr := sext16_range (b1 <<< 8 ||| b2)
  have hpc1 : (pc + 1) % SIZE_MOD = pc + 1 := by unfold SIZE_MOD; omega
  have hpc2 : (pc + 1 + 1) % SIZE_MOD = pc + 2 := by unfold SIZE_MOD; omega
  have hv1 : u16 (u16 b1 <<< 8) = b1 <<< 8 := by
    unfold u16
    rw [Nat.shiftLeft_eq, Nat.shiftLeft_eq]
    omega
  have hv2 : u16 b2 = b2 := by unfold u16; omega
  have hlt : b1 <<< 8 ||| b2 < 2 ^ 16 := by
    apply Nat.or_lt_two_pow
    · rw [Nat.shiftLeft_eq]; omega
    · omega
  have htmp : u16 (b1 <<< 8 ||| b2) = b1 <<< 8 ||| b2 := by unfold u16; omega
  simp only [jump, hpc1, h1, hpc2, h2, hv1, hv2, htmp, bind, Except.bind, pure, Except.pure]
  congr 1
  generalize sext16 (b1 <<< 8 ||| b2) = idx at hoff hr ⊢
  unfold toSize SIZE_MOD
  omega

theorem exec_branch (cfg : Config) (bc0 : bc0_file) (s : State) (op : Opcode)
    (a b : c0_value) (rest : List c0_value) (t : Bool) (hS : s.S = b :: a :: rest)
    (hb : branch_holds op a b = some t) :
    exec cfg bc0 s op
      = if t then (jump s.P ((s.pc + 1) % SIZE_MOD)).map (fun pc => { s with S := rest, pc := pc })
        else .ok { s with S := rest, pc := ((s.pc + 1) % SIZE_MOD + 2) % SIZE_MOD } := by
  cases op <;> cases a <;> cases b <;> simp only [branch_holds, reduceCtorEq] at hb <;>
    (cases (Option.some.inj hb)
     simp only [exec, if_cmp, if_icmp, hS, c0v_pop, val2int, bind, Except.bind, pure,
       Except.pure, Except.map, val_equal_comm])

/-- C6: let the code array be smaller than 2^63 bytes (as every C object is) and let `off` be
the signed 16-bit big-endian value `(P[start+1] << 8) | P[start+2]` with `start + off ≥ 0`.
A step of `GOTO` at `start`, and a step of a conditional branch at `start` whose condition
holds, set pc to exactly `start + off`, for negative as for positive `off`; a step of a
conditional branch whose condition does not hold sets pc to `start + 3`. -/
theorem C6_branch_target (cfg : Config) (bc0 : bc0_file) (s : State)
    (hP : s.P.length < 2 ^ 63) :
    (∀ (b1 b2 : Nat), rd s.P (s.pc + 1) = .ok b1 → rd s.P (s.pc + 2) = .ok b2 →
        b1 < 256 → b2 < 256 → 0 ≤ (s.pc : Int) + sext16 (b1 <<< 8 ||| b2) →
        ∃ target : Nat, (target : Int) = (s.pc : Int) + sext16 (b1 <<< 8 ||| b2)
          ∧ (rd s.P s.pc = .ok (cfg.ops.enc .GOTO) →
              step cfg bc0 s = .ok { s with pc := target })
          ∧ (∀ (op : Opcode) (a b : c0_value) (rest : List c0_value),
              rd s.P s.pc = .ok (cfg.ops.enc op) → s.S = b :: a :: rest →
              branch_holds op a b = some true →
              step cfg bc0 s = .ok { s with S := rest, pc := target }))
    ∧ (∀ (op : Opcode) (a b : c0_value) (rest : List c0_value),
        rd s.P s.pc = .ok (cfg.ops.enc op) → s.S = b :: a :: rest →
        branch_holds op a b = some false →
        step cfg bc0 s = .ok { s with S := rest, pc := s.pc + 3 }) := by
  constructor
  · intro b1 b2 h1 h2 hb1 hb2 hoff
    have hj := jump_eq s.P s.pc b1 b2 hP h1 h2 hb1 hb2 hoff
    refine ⟨((s.pc : Int) + sext16 (b1 <<< 8 ||| b2)).toNat, Int.toNat_of_nonneg hoff, ?_, ?_⟩
    · intro hop
      rw [step_at cfg bc0 s .GOTO hop]
      simp only [exec, hj, bind, Except.bind, pure, Except.pure]
    · intro op a b rest hop hS hb
      rw [step_at cfg bc0 s op hop, exec_branch cfg bc0 s op a b rest true hS hb]
      simp only [if_true, hj, Except.map]
  · intro op a b rest hop hS hb
    have hl := rd_lt s.P s.pc _ hop
    rw [step_at cfg bc0 s op hop, exec_branch cfg bc0 s op a b rest false hS hb]
    have : ((s.pc + 1) % SIZE_MOD + 2) % SIZE_MOD = s.pc + 3 := by
      unfold SIZE_MOD; omega
    simp [this]

theorem C6_branch_target_witness :
    (∃ target : Nat, (target : Int) = ((3 : Nat) : Int) + sext16 (0xFF <<< 8 ||| 0xFD)
        ∧ step c0vm_cfg E1_image goto_back_state = .ok { goto_back_state with pc := target })
    ∧ (∃ target : Nat, (target : Int) = ((0 : Nat) : Int) + sext16 (0x00 <<< 8 ||| 0x06)
        ∧ step c0vm_cfg E1_image icmplt_state = .ok { icmplt_state with S := [], pc := target })
    ∧ step c0vm_cfg E1_image icmplt_not_state
        = .ok { icmplt_not_state with S := [], pc := 0 + 3 } :=
  ⟨(fun ⟨t, ht, hg, _⟩ => ⟨t, ht, hg rfl⟩)
      ((C6_branch_target c0vm_cfg E1_image goto_back_state (by decide)).1 0xFF 0xFD rfl rfl
        (by decide) (by decide) (by decide)),
   (fun ⟨t, ht, _, hc⟩ => ⟨t, ht, hc .IF_ICMPLT (.int (-1)) (.int 0) [] rfl rfl rfl⟩)
      ((C6_branch_target c0vm_cfg E1_image icmplt_state (by decide)).1 0x00 0x06 rfl rfl
        (by decide) (by decide) (by decide)),
   (C6_branch_target c0vm_cfg E1_image icmplt_not_state (by decide)).2
      .IF_ICMPLT (.int 0) (.int (-1)) [] rfl rfl rfl⟩

/-! ## Calls -/

theorem imm16_eq (P : List Nat) (pc b1 b2 : Nat) (hP : P.length < 2 ^ 63)
    (h1 : rd P (pc + 1) = .ok b1) (h2 : rd P (pc + 2) = .ok b2) (hb1 : b1 < 256)
    (hb2 : b2 < 256) : imm16 P pc = .ok (b1 * 256 + b2) := by
  have hl := rd_lt P (pc + 2) b2 h2
  have hpc1 : (pc + 1) % SIZE_MOD = pc + 1 := by unfold SIZE_MOD; omega
  have hpc2 : (pc + 2) % SIZE_MOD = pc + 2 := by unfold SIZE_MOD; omega
  have hor : b1 <<< 8 ||| b2 = b1 * 256 + b2 := by
    rw [Nat.shiftLeft_eq, Nat.mul_comm b1, ← Nat.mul_add_lt_is_or (by omega) b1]
  have hv1 : u16 (u16 b1 <<< 8) = b1 <<< 8 := by
    unfold u16
    rw [Nat.shiftLeft_eq, Nat.shiftLeft_eq]
    omega
  have hv2 : u16 b2 = b2 := by unfold u16; omega
  have htmp : u16 (b1 * 256 + b2) = b1 * 256 + b2 := by unfold u16; omega
  simp only [imm16, hpc1, hpc2, h1, h2, hv1, hv2, hor, htmp, bind, Except.bind, pure,
    Except.pure]

theorem pop_args_eq (args : List c0_value) :
    ∀ (A rest : List c0_value), args.length ≤ A.length →
      pop_args args.length A (args.reverse ++ rest) = .ok (args ++ A.drop args.length, rest) := by
  induction args using List.reverseRecOn with
  | nil => intro A rest _; simp [pop_args]
  | append_singleton init v ih =>
    intro A rest hlen
    simp only [List.length_append, List.length_singleton] at hlen
    have hlt : init.length < A.length := by omega
    have hstep : pop_args (init.length + 1) A (v :: (init.reverse ++ rest))
        = pop_args init.length (A.set init.length v) (init.reverse ++ rest) := by
      simp [pop_args, c0v_pop, wr, hlt, bind, Except.bind]
    rw [List.length_append, List.length_singleton, List.reverse_append, List.reverse_singleton,
      List.singleton_append, List.cons_append, hstep, ih _ rest (by simp; omega)]
    congr 2
    rw [List.drop_set, if_neg (by omega), Nat.sub_self, List.drop_eq_getElem_cons hlt,
      List.set_cons_zero]
    simp

theorem invokestatic_step (cfg : Config) (bc0 : bc0_file) (s : State) (b1 b2 : Nat)
    (f : function_info) (args rest : List c0_value)
    (hP : s.P.length < 2 ^ 63)
    (hop : rd s.P s.pc = .ok (cfg.ops.enc .INVOKESTATIC))
    (h1 : rd s.P (s.pc + 1) = .ok b1) (h2 : rd s.P (s.pc + 2) = .ok b2)
    (hb1 : b1 < 256) (hb2 : b2 < 256)
    (hf : rd bc0.function_pool (b1 * 256 + b2) = .ok f)
    (hn : f.num_args ≤ f.num_vars) (hargs : args.length = f.num_args)
    (hS : s.S = args.reverse ++ rest) :
    step cfg bc0 s
      = .ok { S := [], P := f.code, pc := 0,
              V := args ++ (List.replicate f.num_vars zero_value).drop f.num_args,
              callStack := { S := rest, P := s.P, pc := s.pc + 3, V := s.V } :: s.callStack,
              H := s.H } := by
  have hl := rd_lt s.P (s.pc + 2) b2 h2
  have hpc3 : (s.pc + 3) % SIZE_MOD = s.pc + 3 := by unfold SIZE_MOD; omega
  have hpop := pop_args_eq args (List.replicate f.num_vars zero_value) rest
    (by rw [List.length_replicate]; omega)
  rw [hargs] at hpop
  rw [step_at cfg bc0 s .INVOKESTATIC hop]
  simp only [exec, imm16_eq s.P s.pc b1 b2 hP h1 h2 hb1 hb2, hf, hS, hpop, hpc3, bind,
    Except.bind, pure, Except.pure]

/-- C7: let `f = function_pool[idx]`, `idx` the big-endian value of the two immediate bytes,
with `f.num_args ≤ f.num_vars`, and let the caller's operand stack hold the arguments `args`
(in push order, the last one on top) above `rest`. A step of `INVOKESTATIC idx` gives the state
with code `f.code`, pc 0, an empty operand stack, local variables of length `f.num_vars` with
`V[i] = args[i]` for `i < f.num_args` and the zero value in the other slots, and on top of the
call stack the caller's frame: its code, its local variables, return pc `pc + 3` and its operand
stack `rest`. -/
theorem C7_invokestatic (cfg : Config) (bc0 : bc0_file) (s : State) (b1 b2 : Nat)
    (f : function_info) (args rest : List c0_value)
    (hP : s.P.length < 2 ^ 63)
    (hop : rd s.P s.pc = .ok (cfg.ops.enc .INVOKESTATIC))
    (h1 : rd s.P (s.pc + 1) = .ok b1) (h2 : rd s.P (s.pc + 2) = .ok b2)
    (hb1 : b1 < 256) (hb2 : b2 < 256)
    (hf : rd bc0.function_pool (b1 * 256 + b2) = .ok f)
    (hn : f.num_args ≤ f.num_vars) (hargs : args.length = f.num_args)
    (hS : s.S = args.reverse ++ rest) :
    ∃ V : List c0_value,
      step cfg bc0 s
        = .ok { S := [], P := f.code, pc := 0, V := V,
                callStack := { S := rest, P := s.P, pc := s.pc + 3, V := s.V } :: s.callStack,
                H := s.H }
      ∧ V.length = f.num_vars
      ∧ (∀ i, i < f.num_args → V[i]? = args[i]?)
      ∧ (∀ i, f.num_args ≤ i → i < f.num_vars → V[i]? = some zero_value) := by
  refine ⟨args ++ (List.replicate f.num_vars zero_value).drop f.num_args,
    invokestatic_step cfg bc0 s b1 b2 f args rest hP hop h1 h2 hb1 hb2 hf hn hargs hS,
    ?_, ?_, ?_⟩
  · simp [hargs]; omega
  · intro i hi
    rw [List.getElem?_append_left (by omega)]
  · intro i hi1 hi2
    rw [List.getElem?_append_right (by omega), List.drop_replicate,
      List.getElem?_replicate_of_lt (by omega)]

theorem C7_invokestatic_witness :
    ∃ V : List c0_value,
      step c0vm_cfg call_image E5_call_state
        = .ok { S := [], P := callee23.code, pc := 0, V := V,
                callStack := [{ S := [.int 5], P := E5_main.code, pc := 4 + 3, V := [.int 9] }],
                H := [] }
      ∧ V.length = 3
      ∧ (∀ i, i < 2 → V[i]? = [c0_value.int 10, c0_value.int 32][i]?)
      ∧ (∀ i, 2 ≤ i → i < 3 → V[i]? = some zero_value) :=
  C7_invokestatic c0vm_cfg call_image E5_call_state 0 1 callee23 [.int 10, .int 32] [.int 5]
    (by decide) rfl rfl rfl (by decide) (by decide) rfl (by decide) rfl rfl

theorem exec_VLOAD (cfg : Config) (bc0 : bc0_file) (s : State) (k : Nat) (v : c0_value)
    (hk : rd s.P ((s.pc + 1) % SIZE_MOD) = .ok k) (hv : rd s.V k = .ok v) :
    exec cfg bc0 s .VLOAD = .ok { s with S := v :: s.S, pc := (s.pc + 2) % SIZE_MOD } := by
  simp [exec, hk, hv, c0v_push, bind, Except.bind, pure, Except.pure]

theorem exec_RETURN_frame (cfg : Config) (bc0 : bc0_file) (s : State) (r : c0_value)
    (fr : frame) (cs : List frame) (hS : s.S = [r]) (hcs : s.callStack = fr :: cs)
    (hdbg : cfg.DEBUG = true → ∃ i, r = .int i) :
    exec cfg bc0 s .RETURN
      = .ok { S := r :: fr.S, P := fr.P, pc := fr.pc, V := fr.V, callStack := cs, H := s.H } := by
  cases hd : cfg.DEBUG
  · simp [exec, hS, hcs, ASSERT, IF_DEBUG, hd, c0v_pop, c0v_push, bind, Except.bind, pure,
      Except.pure]
  · obtain ⟨i, hi⟩ := hdbg hd
    subst hi
    simp [exec, hS, hcs, ASSERT, IF_DEBUG, hd, c0v_pop, c0v_push, val2int, bind, Except.bind,
      pure, Except.pure]

theorem exec_RETURN_reference_debug (cfg : Config) (bc0 : bc0_file) (s : State) (p : Ptr)
    (hS : s.S = [.ptr p]) (hd : cfg.DEBUG = true) :
    exec cfg bc0 s .RETURN = .error .undefined := by
  simp [exec, hS, ASSERT, IF_DEBUG, hd, c0v_pop, val2int, bind, Except.bind, pure, Except.pure]

/-- The two-function program of the call scenario, for an arithmetic handler `g`. -/
theorem run_call_arith_return (cfg : Config) (bc0 : bc0_file) (op : Opcode)
    (g : Int → Int → Res Int) (hop : ∀ s, exec cfg bc0 s op = arith cfg s g)
    (x y k : Nat) (r : Int) (hg : g (sext8 x) (sext8 y) = .ok r)
    (f0 f1 : function_info) (fs : List function_info)
    (hpool : bc0.function_pool = f0 :: f1 :: fs)
    (hf0 : f0.code = [cfg.ops.enc .BIPUSH, x, cfg.ops.enc .BIPUSH, y,
      cfg.ops.enc .INVOKESTATIC, 0, 1, cfg.ops.enc .RETURN])
    (hf1 : f1.code = [cfg.ops.enc .VLOAD, 0, cfg.ops.enc .VLOAD, 1, cfg.ops.enc op,
      cfg.ops.enc .RETURN])
    (hargs : f1.num_args = 2) (hvars : f1.num_vars = 2) :
    execute cfg bc0 (8 + k) = some (.ret r) := by
  unfold execute
  rw [init_ok bc0 f0 (f1 :: fs) hpool, hf0]
  simp only
  rw [show 8 + k = (k + 6) + 2 by omega, run_bipush2]
  rw [run_ok cfg bc0 (k + 5) _ _
    (invokestatic_step cfg bc0 _ 0 1 f1 [.int (sext8 x), .int (sext8 y)] []
      (by simp) (by simp [rd]) (by simp [rd]) (by simp [rd]) (by omega) (by omega)
      (by simp [rd, hpool]) (by omega) (by simp [hargs]) (by simp))]
  simp only [hf1, hvars, hargs, List.drop_replicate, Nat.sub_self, List.replicate_zero,
    List.append_nil]
  rw [run_ok cfg bc0 (k + 4) _ _
    (by rw [step_at cfg bc0 _ .VLOAD (by simp [rd])]
        exact exec_VLOAD cfg bc0 _ 0 (.int (sext8 x)) (by simp [rd, SIZE_MOD]) (by simp [rd]))]
  rw [run_ok cfg bc0 (k + 3) _ _
    (by rw [step_at cfg bc0 _ .VLOAD (by simp [rd, SIZE_MOD])]
        exact exec_VLOAD cfg bc0 _ 1 (.int (sext8 y)) (by simp [rd, SIZE_MOD]) (by simp [rd]))]
  rw [run_ok cfg bc0 (k + 2) _ _
    (by rw [step_at cfg bc0 _ op (by simp [rd, SIZE_MOD]), hop]
        exact arith_ok cfg _ g (sext8 x) (sext8 y) r [] rfl hg)]
  rw [run_ok cfg bc0 (k + 1) _ _
    (by rw [step_at cfg bc0 _ .RETURN (by simp [rd, SIZE_MOD])]
        exact exec_RETURN_frame cfg bc0 _ (.int r) _ [] rfl rfl (fun _ => ⟨r, rfl⟩))]
  rw [run_halt cfg bc0 k _ (.ret r)
    (by rw [step_at cfg bc0 _ .RETURN (by simp [rd])]
        exact exec_RETURN_top cfg bc0 _ r [] rfl rfl (fun _ => rfl))]

/-- C9: for `op` one of `IADD`, `ISUB`, `IMUL` and all bytes `x`, `y`, the two-function image
with function 0 = `BIPUSH x; BIPUSH y; INVOKESTATIC 1; RETURN` and function 1 (two arguments,
two local variables) = `VLOAD 0; VLOAD 1; op; RETURN` makes `execute` return the same value
as the one-function image `BIPUSH x; BIPUSH y; op; RETURN`; both runs stop. With `op = IADD`,
`x = 10` and `y = 32` the value is 42. -/
theorem C9_call_equals_inline (cfg : Config) (op : Opcode) (x y k : Nat)
    (img2 img1 : bc0_file) (f0 f1 g0 : function_info) (fs2 fs1 : List function_info)
    (hop : op = .IADD ∨ op = .ISUB ∨ op = .IMUL)
    (hpool2 : img2.function_pool = f0 :: f1 :: fs2)
    (hf0 : f0.code = [cfg.ops.enc .BIPUSH, x, cfg.ops.enc .BIPUSH, y,
      cfg.ops.enc .INVOKESTATIC, 0, 1, cfg.ops.enc .RETURN])
    (hf1 : f1.code = [cfg.ops.enc .VLOAD, 0, cfg.ops.enc .VLOAD, 1, cfg.ops.enc op,
      cfg.ops.enc .RETURN])
    (hargs : f1.num_args = 2) (hvars : f1.num_vars = 2)
    (hpool1 : img1.function_pool = g0 :: fs1)
    (hg0 : g0.code = [cfg.ops.enc .BIPUSH, x, cfg.ops.enc .BIPUSH, y, cfg.ops.enc op,
      cfg.ops.enc .RETURN]) :
    ∃ v : Int, execute cfg img2 (8 + k) = some (.ret v)
      ∧ execute cfg img1 (4 + k) = some (.ret v)
      ∧ (op = .IADD → x = 10 → y = 32 → v = 42) := by
  rcases hop with rfl | rfl | rfl
  · exact ⟨wrap32 (sext8 x + sext8 y),
      run_call_arith_return cfg img2 .IADD _ (fun s => rfl) x y k _ rfl f0 f1 fs2 hpool2 hf0 hf1
        hargs hvars,
      run_bipush2_arith_return cfg img1 .IADD _ (fun s => rfl) x y k _ rfl g0 fs1 hpool1 hg0,
      fun _ hx hy => by subst hx; subst hy; decide⟩
  · exact ⟨wrap32 (sext8 x - sext8 y),
      run_call_arith_return cfg img2 .ISUB _ (fun s => rfl) x y k _ rfl f0 f1 fs2 hpool2 hf0 hf1
        hargs hvars,
      run_bipush2_arith_return cfg img1 .ISUB _ (fun s => rfl) x y k _ rfl g0 fs1 hpool1 hg0,
      fun h => by cases h⟩
  · exact ⟨wrap32 (sext8 x * sext8 y),
      run_call_arith_return cfg img2 .IMUL _ (fun s => rfl) x y k _ rfl f0 f1 fs2 hpool2 hf0 hf1
        hargs hvars,
      run_bipush2_arith_return cfg img1 .IMUL _ (fun s => rfl) x y k _ rfl g0 fs1 hpool1 hg0,
      fun h => by cases h⟩

theorem C9_call_equals_inline_witness :
    ∃ v : Int, execute c0vm_cfg E5_image (8 + 0) = some (.ret v)
      ∧ execute c0vm_cfg E5_inlined_image (4 + 0) = some (.ret v)
      ∧ (Opcode.IADD = .IADD → 10 = 10 → 32 = 32 → v = 42) :=
  C9_call_equals_inline c0vm_cfg .IADD 10 32 0 E5_image E5_inlined_image E5_main E5_callee
    E5_inlined_main [] [] (Or.inl rfl) rfl rfl rfl rfl rfl rfl rfl

/-! ## Arrays -/

theorem exec_AADDS (cfg : Config) (bc0 : bc0_file) (s : State) (i : Int) (p : Ptr)
    (a : c0_array) (rest : List c0_value) (hS : s.S = .int i :: .ptr p :: rest)
    (harr : load_array s.H p = .ok a) :
    exec cfg bc0 s .AADDS
      = if i ≥ a.count ∧ i ≥ 0 then .error (.trap .memory)
        else (ptr_add a.elems (wrap32 (a.elt_size * i))).map
          (fun res => { s with S := .ptr res :: rest, pc := (s.pc + 1) % SIZE_MOD }) := by
  simp only [exec, hS, harr, c0v_pop, val2int, pop_ptr, val2ptr, push_ptr, c0v_push, ptr2val,
    c0_memory_error, bind, Except.bind, pure, Except.pure, Except.map]

/-- In-range and too-large indices: `AADDS` traps with a memory error when `i ≥ count`. -/
theorem aadds_large_index_traps (cfg : Config) (bc0 : bc0_file) (s : State) (i : Int) (p : Ptr)
    (a : c0_array) (rest : List c0_value) (hop : rd s.P s.pc = .ok (cfg.ops.enc .AADDS))
    (hS : s.S = .int i :: .ptr p :: rest) (harr : load_array s.H p = .ok a)
    (hc : 0 ≤ a.count) (hi : a.count ≤ i) :
    step cfg bc0 s = .error (.trap .memory) := by
  rw [step_at cfg bc0 s .AADDS hop, exec_AADDS cfg bc0 s i p a rest hS harr,
    if_pos ⟨hi, le_trans hc hi⟩]

/-- Negative indices: `AADDS` does not trap but pushes the address `elems + elt_size * i`. -/
theorem aadds_negative_index_pushes (cfg : Config) (bc0 : bc0_file) (s : State) (i : Int)
    (b : Nat) (a : c0_array) (blk : Nat) (off : Int) (rest : List c0_value)
    (hop : rd s.P s.pc = .ok (cfg.ops.enc .AADDS))
    (hS : s.S = .int i :: .ptr (.loc b 0) :: rest)
    (harr : load_array s.H (.loc b 0) = .ok a) (helems : a.elems = .loc blk off)
    (hi : i < 0) :
    step cfg bc0 s
      = .ok { s with S := .ptr (.loc blk (off + wrap32 (a.elt_size * i))) :: rest,
                     pc := (s.pc + 1) % SIZE_MOD } := by
  rw [step_at cfg bc0 s .AADDS hop, exec_AADDS cfg bc0 s i _ a rest hS harr,
    if_neg (fun h => absurd h.2 (not_le.mpr hi)), helems]
  rfl

/-- C10 (the code departs from the claim): on the non-null descriptor of an array of 3 elements
of 4 bytes, a step of `AADDS` with the index -1 does not end in a memory-error trap; it pushes
the address 4 bytes before the element buffer and goes on. The index 3 does trap. -/
theorem C10_aadds_negative_index_no_trap :
    step c0vm_cfg E1_image (aadds_state (-1))
        = .ok { aadds_state (-1) with S := [.ptr (.loc 2 (-4))], pc := 1 }
      ∧ step c0vm_cfg E1_image (aadds_state (-1)) ≠ .error (.trap .memory)
      ∧ step c0vm_cfg E1_image (aadds_state 3) = .error (.trap .memory) := by
  have h : step c0vm_cfg E1_image (aadds_state (-1))
      = .ok { aadds_state (-1) with S := [.ptr (.loc 2 (-4))], pc := 1 } :=
    aadds_negative_index_pushes c0vm_cfg E1_image (aadds_state (-1)) (-1) 1
      { count := 3, elt_size := 4, elems := .loc 2 0 } 2 0 [] rfl rfl rfl rfl (by decide)
  refine ⟨h, ?_, ?_⟩
  · rw [h]
    intro hc
    cases hc
  · exact aadds_large_index_traps c0vm_cfg E1_image (aadds_state 3) 3 (.loc 1 0)
      { count := 3, elt_size := 4, elems := .loc 2 0 } [] rfl rfl rfl (by decide) (by decide)

/-! ## Ways a step can stop -/

theorem sat_ok {α : Type} {Q : α → Prop} {R : Halt → Prop} (a : α) (h : Q a) :
    sat Q R (.ok a) := h

theorem sat_error {α : Type} {Q : α → Prop} {R : Halt → Prop} (e : Halt) (h : R e) :
    sat Q R (.error e : Res α) := h

theorem sat_ok_never {α : Type} (a : α) :
    sat (fun _ => True) (fun _ => False) (.ok a : Res α) := trivial

theorem sat_bind {α β : Type} {Q : β → Prop} {R R' : Halt → Prop} (x : Res α)
    (f : α → Res β) (hx : sat (fun _ => True) R' x) (hR : ∀ e, R' e → R e)
    (hf : ∀ a, sat Q R (f a)) : sat Q R (x >>= f) := by
  cases x with
  | error e => exact hR e hx
  | ok a => exact hf a

theorem sat_c0v_pop (S : List c0_value) : sat (fun _ => True) (· = .undefined) (c0v_pop S) := by
  cases S <;> simp [c0v_pop, sat]

theorem sat_val2int (v : c0_value) : sat (fun _ => True) (· = .undefined) (val2int v) := by
  cases v <;> simp [val2int, sat]

theorem sat_val2ptr (v : c0_value) : sat (fun _ => True) (· = .undefined) (val2ptr v) := by
  cases v <;> simp [val2ptr, sat]

theorem sat_pop_ptr (S : List c0_value) : sat (fun _ => True) (· = .undefined) (pop_ptr S) := by
  rcases S with _ | ⟨v, S⟩
  · simp [pop_ptr, c0v_pop, sat, bind, Except.bind]
  · cases v <;> simp [pop_ptr, c0v_pop, val2ptr, sat, bind, Except.bind, pure, Except.pure]

theorem sat_rd {α : Type} (A : List α) (i : Nat) :
    sat (fun _ => True) (· = .undefined) (rd A i) := by
  unfold rd
  cases A[i]? <;> simp [sat]

theorem sat_wr {α : Type} (A : List α) (i : Nat) (v : α) :
    sat (fun _ => True) (· = .undefined) (wr A i v) := by
  unfold wr
  split_ifs <;> simp [sat]

theorem sat_imm16 (P : List Nat) (pc : Nat) :
    sat (fun _ => True) (· = .undefined) (imm16 P pc) := by
  unfold imm16
  refine sat_bind _ _ (sat_rd _ _) (fun _ h => h) (fun a => ?_)
  refine sat_bind _ _ (sat_rd _ _) (fun _ h => h) (fun b => ?_)
  exact sat_ok _ trivial

theorem sat_pop_args (n : Nat) : ∀ (A S : List c0_value),
    sat (fun _ => True) (· = .undefined) (pop_args n A S) := by
  induction n with
  | zero => intro A S; simp [pop_args, sat]
  | succ n ih =>
    intro A S
    unfold pop_args
    refine sat_bind _ _ (sat_c0v_pop _) (fun _ h => h) (fun a => ?_)
    refine sat_bind _ _ (sat_wr _ _ _) (fun _ h => h) (fun b => ?_)
    exact ih _ _

theorem sat_load (H : Heap) (p : Ptr) (n : Nat) :
    sat (fun _ => True) (· = .undefined) (load H p n) := by
  unfold load
  repeat' split
  all_goals simp [sat]

theorem sat_store (H : Heap) (p : Ptr) (vs : List MemVal) :
    sat (fun _ => True) (· = .undefined) (store H p vs) := by
  unfold store
  repeat' split
  all_goals simp [sat]

theorem sat_bytes_int (cells : List MemVal) :
    sat (fun _ => True) (· = .undefined) (bytes_int cells) := by
  unfold bytes_int
  split <;> simp [sat]

theorem sat_bytes_ptr (cells : List MemVal) :
    sat (fun _ => True) (· = .undefined) (bytes_ptr cells) := by
  unfold bytes_ptr
  repeat' split
  all_goals simp [sat]

theorem sat_load_array (H : Heap) (p : Ptr) :
    sat (fun _ => True) (· = .undefined) (load_array H p) := by
  unfold load_array
  repeat' split
  all_goals simp [sat]

theorem sat_ptr_add (p : Ptr) (k : Int) :
    sat (fun _ => True) (· = .undefined) (ptr_add p k) := by
  cases p <;> simp [ptr_add, sat]

theorem sat_jump (P : List Nat) (pc : Nat) :
    sat (fun _ => True) (· = .undefined) (jump P pc) := by
  unfold jump
  refine sat_bind _ _ (sat_rd _ _) (fun _ h => h) (fun a => ?_)
  refine sat_bind _ _ (sat_rd _ _) (fun _ h => h) (fun b => ?_)
  exact sat_ok _ trivial

theorem sat_ASSERT (cfg : Config) (c : Bool) :
    sat (fun _ => True) (· = .trap .fatal) (ASSERT cfg c) := by
  unfold ASSERT
  split_ifs <;> simp [sat]

theorem sat_REQUIRES (cfg : Config) (c : Bool) :
    sat (fun _ => True) (· = .trap .fatal) (REQUIRES cfg c) := by
  unfold REQUIRES
  split_ifs <;> simp [sat]

theorem sat_div_check (a b : Int) : sat (fun _ => True) (· = .trap .arith) (div_check a b) := by
  unfold div_check c0_arith_error
  split_ifs <;> simp [sat]

theorem sat_shift_check (b : Int) : sat (fun _ => True) (· = .trap .arith) (shift_check b) := by
  unfold shift_check c0_arith_error
  split_ifs <;> simp [sat]


theorem sat_IF_DEBUG {α : Type} (cfg : Config) (x : Res α)
    (h : sat (fun _ => True) (· = .undefined) x) :
    sat (fun _ => True) (· = .undefined) (IF_DEBUG cfg x) := by
  unfold IF_DEBUG
  split_ifs
  · exact sat_bind _ _ h (fun _ he => he) (fun _ => sat_ok _ trivial)
  · exact sat_ok _ trivial

theorem exec_no_assertion (cfg : Config) (bc0 : bc0_file) (s : State) (op : Opcode)
    (h1 : op ≠ .ASSERT) (h2 : op ≠ .NEWARRAY) (h3 : op ≠ .INVOKENATIVE) :
    sat (fun _ => True) (· ≠ .trap .assertion) (exec cfg bc0 s op) := by
  cases op
  case ASSERT => exact absurd rfl h1
  case NEWARRAY => exact absurd rfl h2
  case INVOKENATIVE => exact absurd rfl h3
  all_goals
    simp only [exec, arith, if_cmp, if_icmp, c0_arith_error, c0_memory_error, c0_user_error,
      pure, Except.pure]
    repeat' first
      | exact sat_ok _ trivial
      | exact sat_error _ (by simp)
      | refine sat_bind _ _ (by first
          | exact sat_c0v_pop _ | exact sat_val2int _ | exact sat_val2ptr _
          | exact sat_pop_ptr _ | exact sat_rd _ _ | exact sat_wr _ _ _ | exact sat_imm16 _ _
          | exact sat_pop_args _ _ _ | exact sat_load _ _ _ | exact sat_store _ _ _
          | exact sat_bytes_int _ | exact sat_bytes_ptr _ | exact sat_load_array _ _
          | exact sat_ptr_add _ _ | exact sat_jump _ _ | exact sat_ASSERT _ _
          | exact sat_REQUIRES _ _ | exact sat_div_check _ _ | exact sat_shift_check _
          | exact sat_IF_DEBUG _ _ (sat_val2int _) | exact sat_ok_never _)
          (by intro e he; first | exact he | (subst he; simp) | exact he.elim) (fun a => ?_)
      | refine @sat_bind _ _ _ _ (fun e => e ≠ .trap .assertion) _ _ ?_ (fun e he => he)
          (fun a => ?_)
      | split


theorem OpcodeTable.decode_some (T : OpcodeTable) (b : Nat) (op : Opcode)
    (h : T.decode b = some op) : T.enc op = b := by
  unfold OpcodeTable.decode at h
  have := List.find?_some h
  simpa using this

theorem exec_ASSERT_iff (cfg : Config) (bc0 : bc0_file) (s : State) :
    exec cfg bc0 s .ASSERT = .error (.trap .assertion)
      ↔ ∃ m rest, s.S = .ptr m :: .int 0 :: rest := by
  rcases hS : s.S with _ | ⟨v, _ | ⟨c, rest⟩⟩
  · simp [exec, pop_ptr, c0v_pop, hS, bind, Except.bind]
  · cases v <;> simp [exec, pop_ptr, c0v_pop, val2ptr, hS, bind, Except.bind, pure, Except.pure]
  · cases v <;> cases c <;>
      simp [exec, pop_ptr, c0v_pop, val2ptr, val2int, hS, c0_assertion_failure, bind,
        Except.bind, pure, Except.pure]

theorem exec_NEWARRAY_iff (cfg : Config) (bc0 : bc0_file) (s : State) :
    exec cfg bc0 s .NEWARRAY = .error (.trap .assertion)
      ↔ (∃ b, rd s.P ((s.pc + 1) % SIZE_MOD) = .ok b)
          ∧ ∃ c rest, s.S = .int c :: rest ∧ c < 0 := by
  cases hb : rd s.P ((s.pc + 1) % SIZE_MOD) with
  | error e =>
    have := sat_rd s.P ((s.pc + 1) % SIZE_MOD)
    rw [hb] at this
    simp [exec, hb, bind, Except.bind]
    intro he
    rw [he] at this
    cases this
  | ok b =>
    rcases hS : s.S with _ | ⟨v, rest⟩
    · simp [exec, hb, c0v_pop, hS, bind, Except.bind]
    · cases v <;>
        simp [exec, hb, c0v_pop, val2int, hS, c0_assertion_failure, bind, Except.bind, pure,
          Except.pure]

/-! ## Allocation of arrays -/

/-- What `NEWARRAY` does on a count `c ≥ 0`: the descriptor is the new object number
`s.H.length`, its count is `c`, its element size is the immediate byte read as `int8_t`, and
its element buffer is the next new object, of `sizeof(void*) * c` zero bytes. -/
theorem newarray_step (cfg : Config) (bc0 : bc0_file) (s : State) (b : Nat) (c : Int)
    (rest : List c0_value) (hop : rd s.P s.pc = .ok (cfg.ops.enc .NEWARRAY))
    (hb : rd s.P ((s.pc + 1) % SIZE_MOD) = .ok b) (hS : s.S = .int c :: rest) (hc : 0 ≤ c) :
    step cfg bc0 s
      = .ok { s with
          S := .ptr (.loc s.H.length 0) :: rest,
          H := s.H ++ [.array { count := c, elt_size := sext8 b,
                                elems := .loc (s.H.length + 1) 0 },
                       .bytes (List.replicate (SIZEOF_PTR * c.toNat) (.byte 0))],
          pc := ((s.pc + 1) % SIZE_MOD + 1) % SIZE_MOD } := by
  rw [step_at cfg bc0 s .NEWARRAY hop]
  simp [exec, hb, hS, c0v_pop, val2int, not_lt.mpr hc, push_ptr, c0v_push, ptr2val, zero_bytes,
    bind, Except.bind, pure, Except.pure]

/-- C11 (the code departs from the claim): `NEWARRAY 16` on the count 2 gives a descriptor with
count 2 and element size 16 whose element buffer has 16 zero bytes (`sizeof(void*) * 2`), not
`2 * 16 = 32`; and `NEWARRAY 200` on the count 1 gives the element size -56, not 200, and a
buffer of 8 bytes, not 200. -/
theorem C11_newarray_buffer_size :
    step c0vm_cfg E1_image (newarray_state 16 2)
        = .ok { newarray_state 16 2 with
            S := [.ptr (.loc 1 0)],
            H := [.bytes [], .array { count := 2, elt_size := 16, elems := .loc 2 0 },
                  .bytes (List.replicate 16 (.byte 0))],
            pc := 2 }
      ∧ List.replicate 16 (MemVal.byte 0) ≠ List.replicate (2 * 16) (MemVal.byte 0)
      ∧ step c0vm_cfg E1_image (newarray_state 200 1)
        = .ok { newarray_state 200 1 with
            S := [.ptr (.loc 1 0)],
            H := [.bytes [], .array { count := 1, elt_size := -56, elems := .loc 2 0 },
                  .bytes (List.replicate 8 (.byte 0))],
            pc := 2 } := by
  refine ⟨?_, by decide, ?_⟩
  · exact newarray_step c0vm_cfg E1_image (newarray_state 16 2) 16 2 [] rfl rfl rfl (by decide)
  · exact newarray_step c0vm_cfg E1_image (newarray_state 200 1) 200 1 [] rfl rfl rfl
      (by decide)

/-! ## Loads and stores -/

theorem load_store_same (H H' : Heap) (p : Ptr) (vs : List MemVal)
    (h : store H p vs = .ok H') : load H' p vs.length = .ok vs := by
  cases p with
  | null => simp [store] at h
  | loc b off =>
    unfold store at h
    cases hb : H[b]? with
    | none => simp [hb] at h
    | some blk =>
      cases blk with
      | array a => simp [hb] at h
      | bytes cells =>
        simp only [hb] at h
        split_ifs at h with hr
        cases h
        have hlt : b < H.length := by
          by_contra hc
          rw [List.getElem?_eq_none (by omega)] at hb
          cases hb
        have hlen : off.toNat ≤ cells.length := by omega
        simp only [load, List.getElem?_set_self hlt]
        rw [if_pos (by
          refine ⟨hr.1, ?_⟩
          simp only [List.length_append, List.length_take, List.length_drop]
          omega)]
        congr 1
        rw [List.append_assoc, List.drop_append_of_le_length (by simp; omega)]
        rw [List.drop_of_length_le (by simp), List.nil_append,
          List.take_append_of_le_length (by omega), List.take_length]

theorem toU32_lt (v : Int) : toU32 v < 4294967296 := by
  unfold toU32
  omega

theorem le_bytes (n : Nat) (h : n < 4294967296) :
    n % 256 % 256 + 256 * (n / 256 % 256 % 256) + 65536 * (n / 65536 % 256 % 256)
      + 16777216 * (n / 16777216 % 256 % 256) = n := by
  omega

theorem bytes_int_int_bytes (v : Int) (h1 : -2147483648 ≤ v) (h2 : v < 2147483648) :
    bytes_int (int_bytes v) = .ok v := by
  have hu : ((toU32 v : Nat) : Int) = v % 4294967296 := by
    unfold toU32
    omega
  have hw : wrap32 ((toU32 v : Nat) : Int) = v := by
    rw [hu]
    unfold wrap32
    omega
  show Except.ok (wrap32 ((toU32 v % 256 % 256 + 256 * (toU32 v / 256 % 256 % 256)
      + 65536 * (toU32 v / 65536 % 256 % 256)
      + 16777216 * (toU32 v / 16777216 % 256 % 256) : Nat) : Int)) = Except.ok v
  rw [le_bytes (toU32 v) (toU32_lt v), hw]

/-- A value stored by `IMSTORE` through a pointer is the value `IMLOAD` reads through it. -/
theorem imstore_imload (cfg : Config) (bc0 : bc0_file) (s t : State) (v : Int) (p : Ptr)
    (rest rest' : List c0_value) (H' : Heap)
    (hop : rd s.P s.pc = .ok (cfg.ops.enc .IMSTORE))
    (hS : s.S = .int v :: .ptr p :: rest) (hp : p ≠ .null)
    (hst : store s.H p (int_bytes v) = .ok H')
    (hv : -2147483648 ≤ v ∧ v < 2147483648)
    (htop : rd t.P t.pc = .ok (cfg.ops.enc .IMLOAD))
    (htS : t.S = .ptr p :: rest') (htH : t.H = H') :
    step cfg bc0 s = .ok { s with S := rest, H := H', pc := (s.pc + 1) % SIZE_MOD }
      ∧ step cfg bc0 t = .ok { t with S := .int v :: rest', pc := (t.pc + 1) % SIZE_MOD } := by
  constructor
  · rw [step_at cfg bc0 s .IMSTORE hop]
    simp [exec, hS, hp, hst, c0v_pop, val2ptr, val2int, bind, Except.bind, pure, Except.pure]
  · have hl := load_store_same s.H H' p (int_bytes v) hst
    have hl4 : load t.H p 4 = .ok (int_bytes v) := by
      rw [htH]
      exact hl
    rw [step_at cfg bc0 t .IMLOAD htop]
    simp [exec, htS, hp, hl4, bytes_int_int_bytes v hv.1 hv.2, pop_ptr, c0v_pop, val2ptr,
      push_int, c0v_push, int2val, bind, Except.bind, pure, Except.pure]

/-- C12 (the code departs from the claim): scenario E7 (3 elements of 4 bytes) returns 99, but
the same program on 2 elements of 16 bytes with the index 1 leaves the element buffer: the
buffer has `sizeof(void*) * 2 = 16` bytes and `AADDS` gives the offset 16, so the `IMSTORE`,
the seventh instruction, writes outside it, which C leaves undefined. -/
theorem C12_array_roundtrip_e7_and_wide :
    execute c0vm_cfg E7_image 11 = some (.ret 99)
      ∧ execute c0vm_cfg E7_wide_image 7 = some .undefined := by
  constructor <;> decide

/-- C13: each of `IMLOAD`, `IMSTORE`, `AMLOAD`, `CMLOAD`, `CMSTORE`, `AADDF` and `ARRAYLENGTH`
ends in a memory-error trap when the reference it dereferences or offsets is the null
reference: for every stored value of `IMSTORE`, every `Int` stored by `CMSTORE` and every
immediate byte of `AADDF`. The program `ACONST_NULL; IMLOAD` traps with memory-error. -/
theorem C13_null_reference_traps (cfg : Config) (bc0 : bc0_file) (s : State)
    (rest : List c0_value) :
    (rd s.P s.pc = .ok (cfg.ops.enc .IMLOAD) → s.S = .ptr .null :: rest →
        step cfg bc0 s = .error (.trap .memory))
    ∧ (∀ v : c0_value, rd s.P s.pc = .ok (cfg.ops.enc .IMSTORE) →
        s.S = v :: .ptr .null :: rest → step cfg bc0 s = .error (.trap .memory))
    ∧ (rd s.P s.pc = .ok (cfg.ops.enc .AMLOAD) → s.S = .ptr .null :: rest →
        step cfg bc0 s = .error (.trap .memory))
    ∧ (rd s.P s.pc = .ok (cfg.ops.enc .CMLOAD) → s.S = .ptr .null :: rest →
        step cfg bc0 s = .error (.trap .memory))
    ∧ (∀ v : Int, rd s.P s.pc = .ok (cfg.ops.enc .CMSTORE) →
        s.S = .int v :: .ptr .null :: rest → step cfg bc0 s = .error (.trap .memory))
    ∧ (∀ f : Nat, rd s.P s.pc = .ok (cfg.ops.enc .AADDF) →
        rd s.P ((s.pc + 1) % SIZE_MOD) = .ok f → s.S = .ptr .null :: rest →
        step cfg bc0 s = .error (.trap .memory))
    ∧ (rd s.P s.pc = .ok (cfg.ops.enc .ARRAYLENGTH) → s.S = .ptr .null :: rest →
        step cfg bc0 s = .error (.trap .memory))
    ∧ (∀ (img : bc0_file) (f : function_info) (fs : List function_info) (k : Nat),
        img.function_pool = f :: fs →
        f.code = [cfg.ops.enc .ACONST_NULL, cfg.ops.enc .IMLOAD] →
        execute cfg img (2 + k) = some (.trap .memory)) := by
  refine ⟨?_, ?_, ?_, ?_, ?_, ?_, ?_, ?_⟩
  · intro hop hS
    rw [step_at cfg bc0 s .IMLOAD hop]
    simp [exec, hS, pop_ptr, c0v_pop, val2ptr, c0_memory_error, bind, Except.bind, pure,
      Except.pure]
  · intro v hop hS
    rw [step_at cfg bc0 s .IMSTORE hop]
    simp [exec, hS, c0v_pop, val2ptr, c0_memory_error, bind, Except.bind]
  · intro hop hS
    rw [step_at cfg bc0 s .AMLOAD hop]
    simp [exec, hS, c0v_pop, val2ptr, c0_memory_error, bind, Except.bind]
  · intro hop hS
    rw [step_at cfg bc0 s .CMLOAD hop]
    simp [exec, hS, c0v_pop, val2ptr, c0_memory_error, bind, Except.bind]
  · intro v hop hS
    rw [step_at cfg bc0 s .CMSTORE hop]
    simp [exec, hS, c0v_pop, val2int, val2ptr, c0_memory_error, bind, Except.bind]
  · intro f hop hf hS
    rw [step_at cfg bc0 s .AADDF hop]
    simp [exec, hS, hf, pop_ptr, c0v_pop, val2ptr, c0_memory_error, bind, Except.bind, pure,
      Except.pure]
  · intro hop hS
    rw [step_at cfg bc0 s .ARRAYLENGTH hop]
    simp [exec, hS, pop_ptr, c0v_pop, val2ptr, c0_memory_error, bind, Except.bind, pure,
      Except.pure]
  · intro img f fs k hpool hcode
    unfold execute
    rw [init_ok img f fs hpool, hcode]
    simp only
    rw [show 2 + k = k + 1 + 1 by omega]
    rw [run_ok cfg img (k + 1) _
      { S := [.ptr .null], P := [cfg.ops.enc .ACONST_NULL, cfg.ops.enc .IMLOAD], pc := 1,
        V := List.replicate f.num_vars zero_value, callStack := [],
        H := [.bytes (img.string_pool.map .byte)] }
      (by rw [step_at cfg img _ .ACONST_NULL (by simp [rd])]
          simp [exec, c0v_push, ptr2val, SIZE_MOD, pure, Except.pure])]
    rw [run_halt cfg img k _ (.trap .memory)
      (by rw [step_at cfg img _ .IMLOAD (by simp [rd])]
          simp [exec, pop_ptr, c0v_pop, val2ptr, c0_memory_error, bind, Except.bind, pure,
            Except.pure])]

theorem C13_null_reference_traps_witness :
    step c0vm_cfg E6_image (instr_state [0x2E] [.ptr .null]) = .error (.trap .memory)
    ∧ step c0vm_cfg E6_image (instr_state [0x4E] [.int 5, .ptr .null]) = .error (.trap .memory)
    ∧ step c0vm_cfg E6_image (instr_state [0x2F] [.ptr .null]) = .error (.trap .memory)
    ∧ step c0vm_cfg E6_image (instr_state [0x34] [.ptr .null]) = .error (.trap .memory)
    ∧ step c0vm_cfg E6_image (instr_state [0x55] [.int 65, .ptr .null])
        = .error (.trap .memory)
    ∧ step c0vm_cfg E6_image (instr_state [0x62, 4] [.ptr .null]) = .error (.trap .memory)
    ∧ step c0vm_cfg E6_image (instr_state [0xBE] [.ptr .null]) = .error (.trap .memory)
    ∧ execute c0vm_cfg E6_image 2 = some (.trap .memory) :=
  ⟨(C13_null_reference_traps c0vm_cfg E6_image (instr_state [0x2E] [.ptr .null]) []).1
      rfl rfl,
   (C13_null_reference_traps c0vm_cfg E6_image (instr_state [0x4E] [.int 5, .ptr .null])
      []).2.1 (.int 5) rfl rfl,
   (C13_null_reference_traps c0vm_cfg E6_image (instr_state [0x2F] [.ptr .null]) []).2.2.1
      rfl rfl,
   (C13_null_reference_traps c0vm_cfg E6_image (instr_state [0x34] [.ptr .null]) []).2.2.2.1
      rfl rfl,
   (C13_null_reference_traps c0vm_cfg E6_image (instr_state [0x55] [.int 65, .ptr .null])
      []).2.2.2.2.1 65 rfl rfl,
   (C13_null_reference_traps c0vm_cfg E6_image (instr_state [0x62, 4] [.ptr .null])
      []).2.2.2.2.2.1 4 rfl rfl rfl,
   (C13_null_reference_traps c0vm_cfg E6_image (instr_state [0xBE] [.ptr .null])
      []).2.2.2.2.2.2.1 rfl rfl,
   (C13_null_reference_traps c0vm_cfg E6_image (instr_state [0xBE] [.ptr .null])
      []).2.2.2.2.2.2.2 E6_image E6_main [] 0 rfl rfl⟩

/-! ## Instruction lengths -/

theorem sat_any {α : Type} (x : Res α) : sat (fun _ => True) (fun _ => True) x := by
  cases x <;> trivial

theorem sat_elim {α : Type} {Q : α → Prop} {R : Halt → Prop} (x : Res α) (a : α)
    (h : sat Q R x) (hx : x = .ok a) : Q a := by
  rw [hx] at h
  exact h

set_option maxHeartbeats 1000000 in
/-- Every instruction of the spec's list other than `CMSTORE`, the conditional branches and
the transfers of control advances pc by its declared length when its step completes. -/
theorem pc_advance (cfg : Config) (bc0 : bc0_file) (s s' : State) (op : Opcode) (n : Nat)
    (hop : rd s.P s.pc = .ok (cfg.ops.enc op)) (hP : s.P.length < 2 ^ 63)
    (hlen : declared_length op = some n) (h1 : op ∉ transfer_ops) (h2 : op ∉ branch_ops)
    (h3 : op ≠ .CMSTORE) (hstep : step cfg bc0 s = .ok s') : s'.pc = s.pc + n := by
  have hl := rd_lt s.P s.pc _ hop
  rw [step_at cfg bc0 s op hop] at hstep
  refine sat_elim (Q := fun t : State => t.pc = s.pc + n) (R := fun _ => True) _ s' ?_ hstep
  cases op <;> simp only [declared_length, Option.some.injEq, reduceCtorEq] at hlen <;>
    subst hlen
  all_goals
    first
    | (exfalso
       revert h1 h2 h3
       simp [transfer_ops, branch_ops]
       done)
    | (simp only [exec, arith, c0_arith_error, c0_memory_error, c0_user_error,
         c0_assertion_failure, pure, Except.pure]
       repeat' first
         | exact sat_error _ trivial
         | exact sat_ok _ (by show _ = _; simp only []; unfold SIZE_MOD; omega)
         | refine sat_bind _ _ (sat_any _) (fun _ h => h) (fun a => ?_)
         | split)

/-- C14 (the code departs from the claim): a completed step of `CMSTORE`, whose declared
length is 1, leaves pc where it was: in the state `cmstore_state` (pc 0, code `CMSTORE; RETURN`)
it stores the byte and pops both operands, but the next state still has pc 0, so the next
iteration decodes `CMSTORE` again, now on an empty operand stack, instead of `RETURN`. -/
theorem C14_cmstore_does_not_advance :
    declared_length .CMSTORE = some 1
      ∧ step c0vm_cfg E1_image cmstore_state
        = .ok { cmstore_state with S := [], H := [.bytes [], .bytes [.byte 65]], pc := 0 }
      ∧ run c0vm_cfg E1_image 2 cmstore_state = some .undefined := by
  refine ⟨rfl, rfl, by decide⟩

/-! ## Assertion failures -/

theorem exec_INVOKENATIVE_iff (cfg : Config) (bc0 : bc0_file) (s : State) :
    exec cfg bc0 s .INVOKENATIVE = .error (.trap .assertion)
      ↔ ∃ (idx : Nat) (g : native_info) (args S' : List c0_value),
          imm16 s.P s.pc = .ok idx ∧ rd bc0.native_pool idx = .ok g
          ∧ pop_args g.num_args (List.replicate g.num_args zero_value) s.S = .ok (args, S')
          ∧ cfg.native_function_table g.function_table_index args s.H
              = .error (.trap .assertion) := by
  cases h1 : imm16 s.P s.pc with
  | error e =>
    have hs := sat_imm16 s.P s.pc
    rw [h1] at hs
    cases hs
    simp [exec, h1, bind, Except.bind]
  | ok idx =>
    cases h2 : rd bc0.native_pool idx with
    | error e =>
      have hs := sat_rd bc0.native_pool idx
      rw [h2] at hs
      cases hs
      simp [exec, h1, h2, bind, Except.bind]
    | ok g =>
      cases h3 : pop_args g.num_args (List.replicate g.num_args zero_value) s.S with
      | error e =>
        have hs := sat_pop_args g.num_args (List.replicate g.num_args zero_value) s.S
        rw [h3] at hs
        cases hs
        simp [exec, h1, h2, h3, bind, Except.bind]
      | ok r =>
        obtain ⟨args, S'⟩ := r
        cases h4 : cfg.native_function_table g.function_table_index args s.H with
        | error e => simp [exec, h1, h2, h3, h4, bind, Except.bind]
        | ok q => simp [exec, h1, h2, h3, h4, bind, Except.bind, pure, Except.pure]

/-- C15 (amended): a step ends in an assertion-failure trap exactly when the instruction is
`ASSERT` and the `Int` beneath the message reference is 0, or the instruction is `NEWARRAY`
(with its immediate byte) and the popped count is negative, or the instruction is
`INVOKENATIVE` and the host function it calls raises an assertion failure. An `ASSERT` with
`c ≠ 0` pops both operands, changes nothing else and advances pc by 1. The program
`BIPUSH -1; NEWARRAY 4` traps with assertion-failure. -/
theorem C15_assertion_failure_iff (cfg : Config) (bc0 : bc0_file) (s : State) :
    (step cfg bc0 s = .error (.trap .assertion) ↔
        (rd s.P s.pc = .ok (cfg.ops.enc .ASSERT)
          ∧ ∃ m rest, s.S = .ptr m :: .int 0 :: rest)
        ∨ (rd s.P s.pc = .ok (cfg.ops.enc .NEWARRAY)
          ∧ (∃ b, rd s.P ((s.pc + 1) % SIZE_MOD) = .ok b)
          ∧ ∃ c rest, s.S = .int c :: rest ∧ c < 0)
        ∨ (rd s.P s.pc = .ok (cfg.ops.enc .INVOKENATIVE)
          ∧ ∃ (idx : Nat) (g : native_info) (args S' : List c0_value),
              imm16 s.P s.pc = .ok idx ∧ rd bc0.native_pool idx = .ok g
              ∧ pop_args g.num_args (List.replicate g.num_args zero_value) s.S
                  = .ok (args, S')
              ∧ cfg.native_function_table g.function_table_index args s.H
                  = .error (.trap .assertion)))
    ∧ (∀ (m : Ptr) (c : Int) (rest : List c0_value),
        rd s.P s.pc = .ok (cfg.ops.enc .ASSERT) → s.P.length < 2 ^ 63 →
        s.S = .ptr m :: .int c :: rest → c ≠ 0 →
        step cfg bc0 s = .ok { s with S := rest, pc := s.pc + 1 })
    ∧ (∀ (img : bc0_file) (f : function_info) (fs : List function_info) (k : Nat),
        img.function_pool = f :: fs →
        f.code = [cfg.ops.enc .BIPUSH, 0xFF, cfg.ops.enc .NEWARRAY, 4] →
        execute cfg img (2 + k) = some (.trap .assertion)) := by
  refine ⟨⟨?_, ?_⟩, ?_, ?_⟩
  · intro h
    cases hrd : rd s.P s.pc with
    | error e =>
      have hs := sat_rd s.P s.pc
      rw [hrd] at hs
      simp only [step, hrd, bind, Except.bind] at h
      cases h
      cases hs
    | ok b =>
      cases hd : cfg.ops.decode b with
      | none =>
        simp only [step, hrd, hd, bind, Except.bind] at h
        cases h
      | some op =>
        have hb := OpcodeTable.decode_some cfg.ops b op hd
        subst hb
        rw [step_at cfg bc0 s op hrd] at h
        by_cases h1 : op = .ASSERT
        · subst h1
          exact Or.inl ⟨rfl, (exec_ASSERT_iff cfg bc0 s).1 h⟩
        · by_cases h2 : op = .NEWARRAY
          · subst h2
            exact Or.inr (Or.inl ⟨rfl, (exec_NEWARRAY_iff cfg bc0 s).1 h⟩)
          · by_cases h3 : op = .INVOKENATIVE
            · subst h3
              exact Or.inr (Or.inr ⟨rfl, (exec_INVOKENATIVE_iff cfg bc0 s).1 h⟩)
            · have hs := exec_no_assertion cfg bc0 s op h1 h2 h3
              rw [h] at hs
              exact absurd rfl hs
  · rintro (⟨hop, h⟩ | ⟨hop, h⟩ | ⟨hop, h⟩)
    · rw [step_at cfg bc0 s .ASSERT hop]
      exact (exec_ASSERT_iff cfg bc0 s).2 h
    · rw [step_at cfg bc0 s .NEWARRAY hop]
      exact (exec_NEWARRAY_iff cfg bc0 s).2 h
    · rw [step_at cfg bc0 s .INVOKENATIVE hop]
      exact (exec_INVOKENATIVE_iff cfg bc0 s).2 h
  · intro m c rest hop hP hS hc
    have hl := rd_lt s.P s.pc _ hop
    have hpc : (s.pc + 1) % SIZE_MOD = s.pc + 1 := by unfold SIZE_MOD; omega
    rw [step_at cfg bc0 s .ASSERT hop]
    simp [exec, hS, hc, hpc, pop_ptr, c0v_pop, val2ptr, val2int, bind, Except.bind, pure,
      Except.pure]
  · intro img f fs k hpool hcode
    unfold execute
    rw [init_ok img f fs hpool, hcode]
    simp only
    rw [show 2 + k = k + 1 + 1 by omega]
    rw [run_ok cfg img (k + 1) _ _
      (by rw [step_at cfg img _ .BIPUSH (by simp [rd])]
          exact exec_BIPUSH cfg img _ 0xFF (by simp [rd, SIZE_MOD]))]
    rw [run_halt cfg img k _ (.trap .assertion)
      (by rw [step_at cfg img _ .NEWARRAY (by simp [rd, SIZE_MOD])]
          exact (exec_NEWARRAY_iff cfg img _).2
            ⟨⟨4, by simp [rd, SIZE_MOD]⟩, sext8 0xFF, [], rfl, by decide⟩)]

theorem C15_assertion_failure_iff_witness :
    step c0vm_cfg E4_image (instr_state [0xCF] [.ptr (.loc 0 0), .int 0])
        = .error (.trap .assertion)
    ∧ step host_assert_cfg native_image (instr_state [0xB7, 0, 0] [])
        = .error (.trap .assertion)
    ∧ step c0vm_cfg E4_image (instr_state [0xCF] [.ptr (.loc 0 0), .int 1])
        = .ok { instr_state [0xCF] [.ptr (.loc 0 0), .int 1] with S := [], pc := 0 + 1 }
    ∧ execute c0vm_cfg E4_image 2 = some (.trap .assertion) :=
  ⟨(C15_assertion_failure_iff c0vm_cfg E4_image
      (instr_state [0xCF] [.ptr (.loc 0 0), .int 0])).1.2 (Or.inl ⟨rfl, .loc 0 0, [], rfl⟩),
   (C15_assertion_failure_iff host_assert_cfg native_image
      (instr_state [0xB7, 0, 0] [])).1.2
      (Or.inr (Or.inr ⟨rfl, 0, native_entry, [], [], rfl, rfl, rfl, rfl⟩)),
   (C15_assertion_failure_iff c0vm_cfg E4_image
      (instr_state [0xCF] [.ptr (.loc 0 0), .int 1])).2.1 (.loc 0 0) 1 [] rfl (by decide) rfl
      (by decide),
   (C15_assertion_failure_iff c0vm_cfg E4_image
      (instr_state [0xCF] [.ptr (.loc 0 0), .int 1])).2.2 E4_image E4_main [] 0 rfl rfl⟩

/-- C15 (counterexample to the claim as stated): with a host function that raises an
assertion failure, a step of `INVOKENATIVE 0`, an instruction that is neither `ASSERT` nor
`NEWARRAY`, ends in an assertion-failure trap. -/
theorem C15_invokenative_host_assertion :
    step host_assert_cfg native_image (instr_state [0xB7, 0, 0] [])
        = .error (.trap .assertion)
      ∧ rd (instr_state [0xB7, 0, 0] []).P (instr_state [0xB7, 0, 0] []).pc
          = .ok (host_assert_cfg.ops.enc .INVOKENATIVE)
      ∧ rd (instr_state [0xB7, 0, 0] []).P (instr_state [0xB7, 0, 0] []).pc
          ≠ .ok (host_assert_cfg.ops.enc .ASSERT)
      ∧ rd (instr_state [0xB7, 0, 0] []).P (instr_state [0xB7, 0, 0] []).pc
          ≠ .ok (host_assert_cfg.ops.enc .NEWARRAY) := by
  refine ⟨rfl, rfl, ?_, ?_⟩
  · intro h
    cases h
  · intro h
    cases h

/-! ## Conditional branches -/

theorem jump_ok (P : List Nat) (pc b1 b2 : Nat) (hP : P.length < 2 ^ 63)
    (h1 : rd P (pc + 1) = .ok b1) (h2 : rd P (pc + 2) = .ok b2) :
    ∃ target, jump P ((pc + 1) % SIZE_MOD) = .ok target := by
  have hl := rd_lt P (pc + 2) b2 h2
  have hpc1 : (pc + 1) % SIZE_MOD = pc + 1 := by unfold SIZE_MOD; omega
  have hpc2 : (pc + 1 + 1) % SIZE_MOD = pc + 2 := by unfold SIZE_MOD; omega
  simp only [jump, hpc1, h1, hpc2, h2, bind, Except.bind, pure, Except.pure]
  exact ⟨_, rfl⟩

/-- C16: for each of the six conditional branches, on an operand stack `b :: a :: rest` to
which the branch condition applies (any two values for `IF_CMPEQ` and `IF_CMPNE`, two `Int`
values for the ordering branches), the step succeeds, pops exactly `b` and `a` and leaves
`rest`, the code, the local variables, the call stack and the heap as they were, whether the
branch is taken or not: the next state differs from the old one only in the operand stack and
pc. For a taken branch the two offset bytes are in the code array. -/
theorem C16_branch_frame (cfg : Config) (bc0 : bc0_file) (s : State) (op : Opcode)
    (a b : c0_value) (rest : List c0_value) (t : Bool)
    (hop : rd s.P s.pc = .ok (cfg.ops.enc op)) (hS : s.S = b :: a :: rest)
    (hb : branch_holds op a b = some t)
    (hoff : t = true → s.P.length < 2 ^ 63
      ∧ ∃ b1 b2, rd s.P (s.pc + 1) = .ok b1 ∧ rd s.P (s.pc + 2) = .ok b2) :
    op ∈ branch_ops
      ∧ ∃ pc' : Nat, step cfg bc0 s = .ok { s with S := rest, pc := pc' } := by
  constructor
  · cases op <;> cases a <;> cases b <;> simp [branch_holds, branch_ops] at hb ⊢
  · rw [step_at cfg bc0 s op hop, exec_branch cfg bc0 s op a b rest t hS hb]
    cases t with
    | false => exact ⟨_, rfl⟩
    | true =>
      obtain ⟨hP, b1, b2, h1, h2⟩ := hoff rfl
      obtain ⟨target, ht⟩ := jump_ok s.P s.pc b1 b2 hP h1 h2
      exact ⟨target, by simp [ht, Except.map]⟩

theorem C16_branch_frame_witness :
    (Opcode.IF_CMPEQ ∈ branch_ops
      ∧ ∃ pc' : Nat, step c0vm_cfg E1_image cmpeq_state
          = .ok { cmpeq_state with S := [.int 7, .ptr .null], pc := pc' })
    ∧ (Opcode.IF_CMPEQ ∈ branch_ops
      ∧ ∃ pc' : Nat, step c0vm_cfg E1_image cmpeq_not_state
          = .ok { cmpeq_not_state with S := [.int 7, .ptr .null], pc := pc' }) :=
  ⟨C16_branch_frame c0vm_cfg E1_image cmpeq_state .IF_CMPEQ (.ptr (.loc 1 0))
      (.ptr (.loc 1 0)) [.int 7, .ptr .null] true rfl rfl rfl
      (fun _ => ⟨by decide, 0x00, 0x06, rfl, rfl⟩),
   C16_branch_frame c0vm_cfg E1_image cmpeq_not_state .IF_CMPEQ (.int 4)
      (.ptr (.loc 1 0)) [.int 7, .ptr .null] false rfl rfl rfl
      (fun h => by cases h)⟩

/-- C17: for `Int` values `a` pushed before `b`, `IF_ICMPLT` takes its branch (pc becomes
`start + off`) when `a < b` and otherwise falls through (pc becomes `start + 3`); likewise
`IF_ICMPGE` for `a ≥ b`, `IF_ICMPGT` for `a > b` and `IF_ICMPLE` for `a ≤ b`, all as signed
comparisons. For every pair exactly one of the conditions of `IF_ICMPLT` / `IF_ICMPGE` holds,
and exactly one of those of `IF_ICMPGT` / `IF_ICMPLE`. -/
theorem C17_signed_comparisons (cfg : Config) (bc0 : bc0_file) (s : State) (a b : Int)
    (rest : List c0_value) (b1 b2 : Nat) (hP : s.P.length < 2 ^ 63)
    (h1 : rd s.P (s.pc + 1) = .ok b1) (h2 : rd s.P (s.pc + 2) = .ok b2)
    (hb1 : b1 < 256) (hb2 : b2 < 256)
    (hoff : 0 ≤ (s.pc : Int) + sext16 (b1 <<< 8 ||| b2))
    (hS : s.S = .int b :: .int a :: rest) :
    ∃ target : Nat, (target : Int) = (s.pc : Int) + sext16 (b1 <<< 8 ||| b2)
      ∧ (rd s.P s.pc = .ok (cfg.ops.enc .IF_ICMPLT) →
          step cfg bc0 s = .ok { s with S := rest, pc := if a < b then target else s.pc + 3 })
      ∧ (rd s.P s.pc = .ok (cfg.ops.enc .IF_ICMPGE) →
          step cfg bc0 s = .ok { s with S := rest, pc := if a ≥ b then target else s.pc + 3 })
      ∧ (rd s.P s.pc = .ok (cfg.ops.enc .IF_ICMPGT) →
          step cfg bc0 s = .ok { s with S := rest, pc := if a > b then target else s.pc + 3 })
      ∧ (rd s.P s.pc = .ok (cfg.ops.enc .IF_ICMPLE) →
          step cfg bc0 s = .ok { s with S := rest, pc := if a ≤ b then target else s.pc + 3 })
      ∧ ((a < b ∧ ¬ a ≥ b) ∨ (¬ a < b ∧ a ≥ b))
      ∧ ((a > b ∧ ¬ a ≤ b) ∨ (¬ a > b ∧ a ≤ b)) := by
  have hj := jump_eq s.P s.pc b1 b2 hP h1 h2 hb1 hb2 hoff
  have hl := rd_lt s.P (s.pc + 2) b2 h2
  have h3 : ((s.pc + 1) % SIZE_MOD + 2) % SIZE_MOD = s.pc + 3 := by unfold SIZE_MOD; omega
  have key : ∀ (op : Opcode) (c : Prop) [Decidable c],
      branch_holds op (.int a) (.int b) = some (decide c) →
      rd s.P s.pc = .ok (cfg.ops.enc op) →
      step cfg bc0 s = .ok { s with
        S := rest,
        pc := (if c then ((s.pc : Int) + sext16 (b1 <<< 8 ||| b2)).toNat else s.pc + 3) } := by
    intro op c _ hb hop
    rw [step_at cfg bc0 s op hop, exec_branch cfg bc0 s op _ _ rest _ hS hb, hj, h3]
    by_cases hc : c <;> simp [hc, Except.map]
  refine ⟨((s.pc : Int) + sext16 (b1 <<< 8 ||| b2)).toNat, Int.toNat_of_nonneg hoff,
    key .IF_ICMPLT (a < b) rfl, key .IF_ICMPGE (a ≥ b) rfl, key .IF_ICMPGT (a > b) rfl,
    key .IF_ICMPLE (a ≤ b) rfl, by omega, by omega⟩

theorem C17_signed_comparisons_witness :
    ∃ target : Nat, (target : Int) = ((0 : Nat) : Int) + sext16 (0x00 <<< 8 ||| 0x06)
      ∧ step c0vm_cfg E1_image icmplt_state
          = .ok { icmplt_state with S := [], pc := if (-1 : Int) < 0 then target else 0 + 3 } :=
  (fun ⟨t, ht, hlt, _⟩ => ⟨t, ht, hlt rfl⟩)
    (C17_signed_comparisons c0vm_cfg E1_image icmplt_state (-1) 0 [] 0x00 0x06 (by decide)
      rfl rfl (by decide) (by decide) (by decide) rfl)

/-! ## References in memory -/

theorem store_ok (H : Heap) (b : Nat) (off : Int) (cells vs : List MemVal)
    (hH : H[b]? = some (.bytes cells)) (h0 : 0 ≤ off)
    (hlen : off.toNat + vs.length ≤ cells.length) :
    store H (.loc b off) vs
      = .ok (H.set b (.bytes (cells.take off.toNat ++ vs
          ++ cells.drop (off.toNat + vs.length)))) := by
  simp [store, hH, h0, hlen]

theorem bytes_ptr_ptr_bytes (p : Ptr) : bytes_ptr (ptr_bytes p) = .ok p := by
  cases p with
  | null => simp [bytes_ptr]
  | loc b off =>
    simp [bytes_ptr, ptr_bytes, SIZEOF_PTR, List.range, List.range.loop]

theorem ptr_bytes_length (p : Ptr) : (ptr_bytes p).length = SIZEOF_PTR := by
  cases p <;> simp [ptr_bytes]

/-- C18 (counterexample to the claim as stated): `AMSTORE` of the null reference through a
non-null reference to a fresh cell of 8 bytes ends in a memory-error trap. -/
theorem C18_amstore_null_value_traps :
    step c0vm_cfg E1_image (amstore_state .null) = .error (.trap .memory) := by
  rfl

/-- C18 (amended): with the destination `r` pushed before the reference `v`, a step of
`AMSTORE` ends in a memory-error trap when `r` or `v` is the null reference. When both are
non-null and `r` designates `sizeof(void*)` bytes inside a byte buffer, the step does not trap
and stores `v` through `r`: it pops both, and an `AMLOAD` through `r` in the resulting heap
pushes `v`. -/
theorem C18_amstore_amended (cfg : Config) (bc0 : bc0_file) (s : State) (r v : Ptr)
    (rest : List c0_value) (hop : rd s.P s.pc = .ok (cfg.ops.enc .AMSTORE))
    (hS : s.S = .ptr v :: .ptr r :: rest) :
    ((r = .null ∨ v = .null) → step cfg bc0 s = .error (.trap .memory))
    ∧ (∀ (blk : Nat) (off : Int) (cells : List MemVal),
        r = .loc blk off → v ≠ .null → s.H[blk]? = some (.bytes cells) → 0 ≤ off →
        off.toNat + SIZEOF_PTR ≤ cells.length →
        ∃ H' : Heap,
          step cfg bc0 s = .ok { s with S := rest, H := H', pc := (s.pc + 1) % SIZE_MOD }
          ∧ ∀ (t : State) (rest' : List c0_value),
              rd t.P t.pc = .ok (cfg.ops.enc .AMLOAD) → t.S = .ptr r :: rest' → t.H = H' →
              step cfg bc0 t
                = .ok { t with S := .ptr v :: rest', pc := (t.pc + 1) % SIZE_MOD }) := by
  constructor
  · intro h
    rw [step_at cfg bc0 s .AMSTORE hop]
    simp only [exec, hS, pop_ptr, c0v_pop, val2ptr, c0_memory_error, bind, Except.bind, pure,
      Except.pure]
    rw [if_pos (by tauto)]
  · intro blk off cells hr hv hH h0 hlen
    subst hr
    obtain ⟨H', hst⟩ : ∃ H', store s.H (.loc blk off) (ptr_bytes v) = .ok H' :=
      ⟨_, store_ok s.H blk off cells (ptr_bytes v) hH h0
        (by rw [ptr_bytes_length]; exact hlen)⟩
    refine ⟨H', ?_, ?_⟩
    · rw [step_at cfg bc0 s .AMSTORE hop]
      simp only [exec, hS, pop_ptr, c0v_pop, val2ptr, bind, Except.bind, pure, Except.pure]
      rw [if_neg (by simp [hv]), hst]
    · intro t rest' htop htS htH
      have hl := load_store_same s.H H' (.loc blk off) (ptr_bytes v) hst
      rw [ptr_bytes_length] at hl
      rw [← htH] at hl
      rw [step_at cfg bc0 t .AMLOAD htop]
      simp [exec, htS, hl, bytes_ptr_ptr_bytes, c0v_pop, val2ptr, push_ptr, c0v_push, ptr2val,
        bind, Except.bind, pure, Except.pure]

theorem C18_amstore_amended_witness :
    step c0vm_cfg E1_image (amstore_state .null) = .error (.trap .memory)
    ∧ ∃ H' : Heap,
        step c0vm_cfg E1_image (amstore_state (.loc 1 4))
          = .ok { amstore_state (.loc 1 4) with S := [], H := H', pc := (0 + 1) % SIZE_MOD }
        ∧ step c0vm_cfg E1_image (amload_state H')
          = .ok { amload_state H' with S := [.ptr (.loc 1 4)], pc := (0 + 1) % SIZE_MOD } :=
  ⟨(C18_amstore_amended c0vm_cfg E1_image (amstore_state .null) (.loc 1 0) .null [] rfl
      rfl).1 (Or.inr rfl),
   (fun ⟨H', h1, h2⟩ => ⟨H', h1, h2 (amload_state H') [] rfl rfl rfl⟩)
     ((C18_amstore_amended c0vm_cfg E1_image (amstore_state (.loc 1 4)) (.loc 1 0) (.loc 1 4)
        [] rfl rfl).2 1 0 (List.replicate SIZEOF_PTR (.byte 0)) rfl (by decide) rfl
        (by decide) (by decide))⟩

/-! ## Null descriptors and characters -/

/-- C19 (the code departs from the claim): a step of `AADDS` whose descriptor reference is the
null reference does not end in a memory-error trap. `AADDS` has no null check: it reads
`array->count` through the null pointer, which C leaves undefined, where `ARRAYLENGTH` on the
same operand calls `c0_memory_error`. -/
theorem C19_aadds_null_descriptor_unchecked :
    step c0vm_cfg E1_image (instr_state [0x63] [.int 0, .ptr .null]) = .error .undefined
      ∧ step c0vm_cfg E1_image (instr_state [0x63] [.int 0, .ptr .null])
          ≠ .error (.trap .memory)
      ∧ step c0vm_cfg E1_image (instr_state [0xBE] [.ptr .null]) = .error (.trap .memory) := by
  have h : step c0vm_cfg E1_image (instr_state [0x63] [.int 0, .ptr .null])
      = .error .undefined := rfl
  refine ⟨h, ?_, rfl⟩
  rw [h]
  intro hc
  cases hc

theorem and_0x7f (v : Int) : (toU32 v &&& 0x7f : Nat) = (v % 128).toNat := by
  have h := Nat.and_pow_two_sub_one_eq_mod (toU32 v) 7
  norm_num at h
  rw [h]
  unfold toU32
  omega

/-- C20: for every reference `r` to a byte inside a byte buffer and every 32-bit integer `v`,
with `r` pushed before `v`, a step of `CMSTORE` does not trap and replaces the one byte at `r`
by `v & 0x7F` (that is, `v mod 128`), leaving every other byte and object of the heap as it
was; a `CMLOAD` through `r` in the resulting heap pushes the `Int` `v mod 128`, which lies in
0..127 and equals `v` exactly when `v` is in 0..127. (The step leaves pc unchanged.) -/
theorem C20_cmstore_cmload (cfg : Config) (bc0 : bc0_file) (s : State) (v : Int) (blk : Nat)
    (off : Int) (cells : List MemVal) (rest : List c0_value)
    (hop : rd s.P s.pc = .ok (cfg.ops.enc .CMSTORE))
    (hS : s.S = .int v :: .ptr (.loc blk off) :: rest)
    (hH : s.H[blk]? = some (.bytes cells)) (h0 : 0 ≤ off) (hlt : off.toNat < cells.length)
    (hv : -2147483648 ≤ v ∧ v < 2147483648) :
    step cfg bc0 s
        = .ok { s with
            S := rest,
            H := s.H.set blk (.bytes (cells.set off.toNat (.byte (v % 128).toNat))) }
      ∧ (∀ (t : State) (rest' : List c0_value),
          rd t.P t.pc = .ok (cfg.ops.enc .CMLOAD) → t.S = .ptr (.loc blk off) :: rest' →
          t.H = s.H.set blk (.bytes (cells.set off.toNat (.byte (v % 128).toNat))) →
          step cfg bc0 t
            = .ok { t with S := .int (v % 128) :: rest', pc := (t.pc + 1) % SIZE_MOD })
      ∧ 0 ≤ v % 128 ∧ v % 128 ≤ 127
      ∧ (v % 128 = v ↔ 0 ≤ v ∧ v ≤ 127) := by
  have hst := store_ok s.H blk off cells [.byte (toU32 v &&& 0x7f)] hH h0
    (by simp only [List.length_singleton]; omega)
  have hset : cells.take off.toNat ++ [MemVal.byte (toU32 v &&& 0x7f)]
      ++ cells.drop (off.toNat + [MemVal.byte (toU32 v &&& 0x7f)].length)
      = cells.set off.toNat (.byte (v % 128).toNat) := by
    rw [List.set_eq_take_append_cons_drop, if_pos hlt, and_0x7f]
    simp
  rw [hset] at hst
  refine ⟨?_, ?_, by omega, by omega, by omega⟩
  · rw [step_at cfg bc0 s .CMSTORE hop]
    simp only [exec, hS, c0v_pop, val2int, val2ptr, bind, Except.bind, pure, Except.pure]
    rw [hst, if_neg (by simp)]
  · intro t rest' htop htS htH
    have hl := load_store_same s.H _ (.loc blk off) [.byte (toU32 v &&& 0x7f)]
      (store_ok s.H blk off cells [.byte (toU32 v &&& 0x7f)] hH h0
        (by simp only [List.length_singleton]; omega))
    rw [hset, ← htH] at hl
    simp only [List.length_singleton] at hl
    have hsx : sext8 (toU32 v &&& 0x7f) = v % 128 := by
      rw [and_0x7f]
      unfold sext8
      split_ifs <;> omega
    rw [step_at cfg bc0 t .CMLOAD htop]
    simp [exec, htS, hl, hsx, c0v_pop, val2ptr, push_int, c0v_push, int2val, bind, Except.bind,
      pure, Except.pure]

theorem C20_cmstore_cmload_witness :
    step c0vm_cfg E1_image (cmstore_state_of 193)
        = .ok { cmstore_state_of 193 with
            S := [],
            H := (cmstore_state_of 193).H.set 1
              (.bytes ([MemVal.byte 0].set (0 : Int).toNat (.byte ((193 : Int) % 128).toNat))) }
      ∧ step c0vm_cfg E1_image (cmload_state [.bytes [], .bytes [.byte 65]])
        = .ok { cmload_state [.bytes [], .bytes [.byte 65]] with
            S := [.int ((193 : Int) % 128)], pc := (0 + 1) % SIZE_MOD } :=
  ⟨(C20_cmstore_cmload c0vm_cfg E1_image (cmstore_state_of 193) 193 1 0 [.byte 0] [] rfl rfl
      rfl (by decide) (by decide) (by decide)).1,
   (C20_cmstore_cmload c0vm_cfg E1_image (cmstore_state_of 193) 193 1 0 [.byte 0] [] rfl rfl
      rfl (by decide) (by decide) (by decide)).2.1
      (cmload_state [.bytes [], .bytes [.byte 65]]) [] rfl rfl rfl⟩

/-! ## Element addresses -/

/-- For an array as `NEWARRAY` allocates it (a buffer of `sizeof(void*) * count` bytes) with
an element size from 4 to 8, `AADDS` at an index `0 ≤ j < count` pushes the address
`elems + elt_size * j`, and the four bytes of an `int` at that address lie inside the buffer. -/
theorem aadds_small_element_in_buffer (cfg : Config) (bc0 : bc0_file) (s : State)
    (j e k : Int) (p : Ptr) (b : Nat) (rest : List c0_value)
    (hop : rd s.P s.pc = .ok (cfg.ops.enc .AADDS))
    (hS : s.S = .int j :: .ptr p :: rest)
    (harr : load_array s.H p = .ok { count := k, elt_size := e, elems := .loc b 0 })
    (he : 4 ≤ e ∧ e ≤ 8) (hj : 0 ≤ j ∧ j < k) (hsmall : e * j < 2147483648) :
    step cfg bc0 s
        = .ok { s with S := .ptr (.loc b (e * j)) :: rest, pc := (s.pc + 1) % SIZE_MOD }
      ∧ 0 ≤ e * j ∧ (e * j).toNat + 4 ≤ SIZEOF_PTR * k.toNat := by
  have h0 : 0 ≤ e * j := Int.mul_nonneg (by omega) hj.1
  have h1 : e * j ≤ 8 * j := Int.mul_le_mul_of_nonneg_right he.2 hj.1
  refine ⟨?_, h0, ?_⟩
  · rw [step_at cfg bc0 s .AADDS hop, exec_AADDS cfg bc0 s j p _ rest hS harr,
      if_neg (fun h => absurd h.1 (not_le.mpr hj.2)), wrap32_id _ (by omega) hsmall]
    simp [ptr_add, Except.map]
  · unfold SIZEOF_PTR
    omega

end C0VM
